import Mathlib

/-
  Verification development for the context-resolution / reference-extraction
  engine of a MongoDB language-server (`src/diagnosticCodes.ts`, class
  `Visitor`).

  The engine operates on Babel ASTs.  We shallowly embed the fragment of the
  Babel AST grammar that the visitor code inspects (`Node` below), and embed
  the two public operations:

    * `parseASTForCompletion` (the spec's `resolveContext`) — injects the
      PLACEHOLDER sentinel at the cursor, parses, and runs an enter-only
      pre-order traversal applying the `_check*` battery;
    * `parseASTForDiagnostics` (the spec's `extractReferences`) — parses the
      raw text and collects collection / field / operator / method references.

  The parser itself is the external `@babel/parser` dependency; it enters the
  embedding as an explicit function argument `parse : String → Option Node`
  (`none` models a parse exception, which the source catches silently).
  Concrete theorems supply an oracle `babelParse` that records Babel's output
  on the specific documents analysed here.
-/

/-- JS `String.prototype.includes` on a list of characters:
`pat` occurs as a contiguous subsequence. -/
def jsIncludesAux (pat : List Char) : List Char → Bool
  | [] => pat.isPrefixOf []
  | c :: rest => pat.isPrefixOf (c :: rest) || jsIncludesAux pat rest

/-- JS `s.includes(pat)`. -/
def jsIncludes (s pat : String) : Bool := jsIncludesAux pat.data s.data

/-- JS `s.startsWith(pat)`. -/
def jsStartsWith (s pat : String) : Bool := pat.data.isPrefixOf s.data

/-- JS `s.split('\n')` (used by `_handleTriggerCharacter`). -/
def jsSplitLines (s : String) : List String := (s.data.splitOn '\n').map String.mk

/-- The sentinel spliced into the text at the cursor
(`const PLACEHOLDER = 'TRIGGER_CHARACTER'`). -/
def PLACEHOLDER : String := "TRIGGER_CHARACTER"

/-- A zero-based `{ line, character }` editor position. -/
structure TextPosition where
  line : Nat
  character : Nat
  deriving DecidableEq

/-- `VisitorSelection` (`stop` embeds the source's `end` field). -/
structure VisitorSelection where
  start : TextPosition
  stop : TextPosition
  deriving DecidableEq

/-- A Babel source position: 1-based `line`, 0-based `column`. -/
structure LineCol where
  line : Nat
  column : Nat
  deriving DecidableEq

/-- A Babel `loc` (`stop` embeds Babel's `end`; end column exclusive). -/
structure Loc where
  start : LineCol
  stop : LineCol
  deriving DecidableEq

/-- The fragment of the Babel AST grammar inspected by `Visitor`.
`TemplateLiteral` keeps the raw text of each quasi.  `ArrayExpression`
elements are optional (elisions are `null` in Babel).  `ObjectExpression`
properties are `ObjectProperty` nodes (spread elements or methods would fail
every `item.type === 'ObjectProperty'` test, so they are omitted). -/
inductive Node where
  | Identifier (name : String) (loc : Loc)
  | StringLiteral (value : String) (loc : Loc)
  | TemplateLiteral (quasis : List String) (loc : Loc)
  | NumericLiteral (value : Int) (loc : Loc)
  | MemberExpression (object property : Node) (computed : Bool) (loc : Loc)
  | CallExpression (callee : Node) (arguments : List Node) (loc : Loc)
  | ObjectExpression (properties : List Node) (loc : Loc)
  | ObjectProperty (key value : Node) (loc : Loc)
  | ArrayExpression (elements : List (Option Node)) (loc : Loc)
  | ExpressionStatement (expression : Node) (loc : Loc)
  | Program (body : List Node) (loc : Loc)

/-- The `CompletionState` record (`_getDefaultsForCompletion` fills it). -/
structure CompletionState where
  databaseName : Option String
  collectionName : Option String
  streamProcessorName : Option String
  isObjectKey : Bool
  isIdentifierObjectValue : Bool
  isTextObjectValue : Bool
  isStage : Bool
  stageOperator : Option String
  isCollectionSymbol : Bool
  isStreamProcessorSymbol : Bool
  isUseCallExpression : Bool
  isGlobalSymbol : Bool
  isDbSymbol : Bool
  isSpSymbol : Bool
  isCollectionName : Bool
  isStreamProcessorName : Bool
  isAggregationCursor : Bool
  isFindCursor : Bool
  deriving DecidableEq

/-- `_getDefaultsForCompletion()`. -/
def defaultsForCompletion : CompletionState :=
  { databaseName := none
    collectionName := none
    streamProcessorName := none
    isObjectKey := false
    isIdentifierObjectValue := false
    isTextObjectValue := false
    isStage := false
    stageOperator := none
    isCollectionSymbol := false
    isStreamProcessorSymbol := false
    isUseCallExpression := false
    isGlobalSymbol := false
    isDbSymbol := false
    isSpSymbol := false
    isCollectionName := false
    isStreamProcessorName := false
    isAggregationCursor := false
    isFindCursor := false }

/-- `_checkIsUseCallAsSimpleString`: `use('…PLACEHOLDER…')`. -/
def condUseCallSimple : Node → Bool
  | .CallExpression (.Identifier "use" _) [.StringLiteral v _] _ => jsIncludes v PLACEHOLDER
  | _ => false

/-- `_checkIsUseCallAsTemplate`: `use` with a single-quasi template literal
whose raw text is truthy (non-empty) and contains PLACEHOLDER. -/
def condUseCallTemplate : Node → Bool
  | .CallExpression (.Identifier "use" _) [.TemplateLiteral [q] _] _ =>
      !(q == "") && jsIncludes q PLACEHOLDER
  | _ => false

/-- `_checkIsCollectionNameAsCallExpression` with its two argument forms
(`_checkGetCollectionAsSimpleString` / `_checkGetCollectionAsTemplate`). -/
def condCollectionNameCall : Node → Bool
  | .CallExpression (.MemberExpression (.Identifier "db" _) (.Identifier "getCollection" _) _ _) [arg] _ =>
      (match arg with
       | .StringLiteral v _ => jsIncludes v PLACEHOLDER
       | .TemplateLiteral [q] _ => jsIncludes q PLACEHOLDER
       | _ => false)
  | _ => false

/-- `_checkIsStreamProcessorNameAsCallExpression` with
`_checkGetStreamProcessorAsSimpleString` / `…AsTemplate`. -/
def condProcessorNameCall : Node → Bool
  | .CallExpression (.MemberExpression (.Identifier "sp" _) (.Identifier "getProcessor" _) _ _) [arg] _ =>
      (match arg with
       | .StringLiteral v _ => jsIncludes v PLACEHOLDER
       | .TemplateLiteral [q] _ => jsIncludes q PLACEHOLDER
       | _ => false)
  | _ => false

/-- `_checkHasDatabaseName`: a `use` call with one string-literal argument
whose end location is lexically at or before the selection start; yields the
argument value. -/
def useDbValue (sel : VisitorSelection) : Node → Option String
  | .CallExpression (.Identifier "use" _) [.StringLiteral v _] loc =>
      if loc.stop.line - 1 < sel.start.line ∨
         (sel.start.line = loc.stop.line - 1 ∧ loc.stop.column ≤ sel.start.character)
      then some v else none
  | _ => none

/-- `_checkHasAggregationCall`: `….aggregate(…).…PLACEHOLDER…`. -/
def condAggregationCursor : Node → Bool
  | .MemberExpression (.CallExpression (.MemberExpression _ (.Identifier "aggregate" _) false _) _ _) (.Identifier p _) _ _ =>
      jsIncludes p PLACEHOLDER
  | _ => false

/-- `_checkHasFindCall`. -/
def condFindCursor : Node → Bool
  | .MemberExpression (.CallExpression (.MemberExpression _ (.Identifier "find" _) false _) _ _) (.Identifier p _) _ _ =>
      jsIncludes p PLACEHOLDER
  | _ => false

/-- `_checkIsCollectionMemberExpression`: `db.<coll>.…PLACEHOLDER…`. -/
def condCollectionSymbolMember : Node → Bool
  | .MemberExpression (.MemberExpression (.Identifier "db" _) _ _ _) (.Identifier p _) _ _ =>
      jsIncludes p PLACEHOLDER
  | _ => false

/-- `_checkIsCollectionCallExpression`: `db.getCollection(…).…PLACEHOLDER…`. -/
def condCollectionSymbolCall : Node → Bool
  | .MemberExpression (.CallExpression (.MemberExpression (.Identifier "db" _) (.Identifier "getCollection" _) _ _) _ _) (.Identifier p _) _ _ =>
      jsIncludes p PLACEHOLDER
  | _ => false

/-- `_checkIsCollectionNameAsMemberExpression`: `db.…PLACEHOLDER…` or
`db['…PLACEHOLDER…']`. -/
def condCollectionNameMember : Node → Bool
  | .MemberExpression (.Identifier "db" _) p _ _ =>
      (match p with
       | .Identifier nm _ => jsIncludes nm PLACEHOLDER
       | .StringLiteral v _ => jsIncludes v PLACEHOLDER
       | _ => false)
  | _ => false

/-- `_checkHasCollectionNameMemberExpression` and
`_checkHasCollectionNameCallExpression` (disjoint patterns), yielding the
collection name recorded in the state. -/
def collectionNameValue : Node → Option String
  | .MemberExpression (.MemberExpression (.Identifier "db" _) p _ _) _ _ _ =>
      (match p with
       | .Identifier nm _ => some nm
       | .StringLiteral v _ => some v
       | _ => none)
  | .MemberExpression (.CallExpression (.MemberExpression (.Identifier "db" _) (.Identifier "getCollection" _) _ _) [.StringLiteral v _] _) _ _ _ =>
      some v
  | _ => none

/-- `_checkIsStreamProcessorMemberExpression`. -/
def condProcessorSymbolMember : Node → Bool
  | .MemberExpression (.MemberExpression (.Identifier "sp" _) _ _ _) (.Identifier p _) _ _ =>
      jsIncludes p PLACEHOLDER
  | _ => false

/-- `_checkIsStreamProcessorCallExpression`. -/
def condProcessorSymbolCall : Node → Bool
  | .MemberExpression (.CallExpression (.MemberExpression (.Identifier "sp" _) (.Identifier "getProcessor" _) _ _) _ _) (.Identifier p _) _ _ =>
      jsIncludes p PLACEHOLDER
  | _ => false

/-- `_checkIsStreamProcessorNameAsMemberExpression` (sets both `isSpSymbol`
and `isStreamProcessorName` on match). -/
def condProcessorNameMember : Node → Bool
  | .MemberExpression (.Identifier "sp" _) p _ _ =>
      (match p with
       | .Identifier nm _ => jsIncludes nm PLACEHOLDER
       | .StringLiteral v _ => jsIncludes v PLACEHOLDER
       | _ => false)
  | _ => false

/-- `_checkHasStreamProcessorNameMemberExpression` and
`…CallExpression`, yielding the processor name. -/
def processorNameValue : Node → Option String
  | .MemberExpression (.MemberExpression (.Identifier "sp" _) p _ _) _ _ _ =>
      (match p with
       | .Identifier nm _ => some nm
       | .StringLiteral v _ => some v
       | _ => none)
  | .MemberExpression (.CallExpression (.MemberExpression (.Identifier "sp" _) (.Identifier "getProcessor" _) _ _) [.StringLiteral v _] _) _ _ _ =>
      some v
  | _ => none

/-- `_checkIsGlobalSymbol`: a bare identifier statement containing
`'TRIGGER_CHARACTER'`. -/
def condGlobalSymbol : Node → Bool
  | .ExpressionStatement (.Identifier nm _) _ => jsIncludes nm "TRIGGER_CHARACTER"
  | _ => false

/-- `_checkIsDbSymbol`: the statement expression is a member expression whose
object is the identifier `db` (the PLACEHOLDER is not consulted). -/
def condDbSymbol : Node → Bool
  | .ExpressionStatement (.MemberExpression (.Identifier "db" _) _ _ _) _ => true
  | _ => false

/-- `_checkIsSpSymbol`. -/
def condSpSymbol : Node → Bool
  | .ExpressionStatement (.MemberExpression (.Identifier "sp" _) _ _ _) _ => true
  | _ => false

/-- An object property whose key is an identifier containing PLACEHOLDER. -/
def propHasPlaceholderKey : Node → Bool
  | .ObjectProperty (.Identifier nm _) _ _ => jsIncludes nm PLACEHOLDER
  | _ => false

/-- An object property whose value is an identifier containing PLACEHOLDER. -/
def propHasPlaceholderIdentValue : Node → Bool
  | .ObjectProperty _ (.Identifier nm _) _ => jsIncludes nm PLACEHOLDER
  | _ => false

/-- An object property whose value is a string literal or single-quasi
template literal containing PLACEHOLDER. -/
def propHasPlaceholderTextValue : Node → Bool
  | .ObjectProperty _ (.StringLiteral v _) _ => jsIncludes v PLACEHOLDER
  | .ObjectProperty _ (.TemplateLiteral [q] _) _ => jsIncludes q PLACEHOLDER
  | _ => false

/-- `_checkIsObjectKey` (the JS `find` callback never returns a truthy value,
so every property is inspected). -/
def condObjectKey : Node → Bool
  | .ObjectExpression props _ => props.any propHasPlaceholderKey
  | _ => false

/-- `_checkIsIdentifierObjectValue`. -/
def condIdentifierObjectValue : Node → Bool
  | .ObjectExpression props _ => props.any propHasPlaceholderIdentValue
  | _ => false

/-- `_checkIsTextObjectValue`. -/
def condTextObjectValue : Node → Bool
  | .ObjectExpression props _ => props.any propHasPlaceholderTextValue
  | _ => false

/-- One array element as inspected by `_checkIsStage`: an object expression
with a PLACEHOLDER-keyed top-level property. -/
def elementHasPlaceholderKey : Option Node → Bool
  | some (.ObjectExpression props _) => props.any propHasPlaceholderKey
  | _ => false

/-- `_checkIsStage`. -/
def condIsStage : Node → Bool
  | .ArrayExpression els _ => els.any elementHasPlaceholderKey
  | _ => false

mutual
/-- Whether the subtree rooted at a node (the node included) contains an
`ObjectProperty` whose key is an identifier containing PLACEHOLDER — the
search performed by the `path.scope.traverse` callback in
`_checkIsStageOperator`. -/
def hasPlaceholderKeyInTree : Node → Bool
  | .ObjectProperty k v _ =>
      (match k with
       | .Identifier nm _ => jsIncludes nm PLACEHOLDER
       | _ => false) || hasPlaceholderKeyInTree k || hasPlaceholderKeyInTree v
  | .MemberExpression o p _ _ => hasPlaceholderKeyInTree o || hasPlaceholderKeyInTree p
  | .CallExpression c args _ => hasPlaceholderKeyInTree c || hasPlaceholderKeyInTreeList args
  | .ObjectExpression ps _ => hasPlaceholderKeyInTreeList ps
  | .ArrayExpression els _ => hasPlaceholderKeyInTreeOpt els
  | .ExpressionStatement e _ => hasPlaceholderKeyInTree e
  | .Program b _ => hasPlaceholderKeyInTreeList b
  | _ => false

def hasPlaceholderKeyInTreeList : List Node → Bool
  | [] => false
  | x :: xs => hasPlaceholderKeyInTree x || hasPlaceholderKeyInTreeList xs

def hasPlaceholderKeyInTreeOpt : List (Option Node) → Bool
  | [] => false
  | none :: xs => hasPlaceholderKeyInTreeOpt xs
  | some x :: xs => hasPlaceholderKeyInTree x || hasPlaceholderKeyInTreeOpt xs
end

/-- One property scanned by `_checkIsStageOperator`: on an identifier-keyed
property with an object-expression value whose subtree (the inner
`scope.traverse`, which skips its root) contains a PLACEHOLDER-keyed
property, the state's `stageOperator` becomes the property's key name;
otherwise the accumulator is kept.  Successive matches overwrite, so the
fold keeps the last one. -/
def stagePropScan (acc : Option String) (p : Node) : Option String :=
  match p with
  | .ObjectProperty (.Identifier name _) (.ObjectExpression vs vl) _ =>
      if hasPlaceholderKeyInTree (.ObjectExpression vs vl) then some name else acc
  | _ => acc

/-- One array element scanned by `_checkIsStageOperator`. -/
def stageElementScan (acc : Option String) (el : Option Node) : Option String :=
  match el with
  | some (.ObjectExpression props _) => props.foldl stagePropScan acc
  | _ => acc

/-- Net effect of `_checkIsStageOperator` on the `stageOperator` field. -/
def stageOperatorValue (n : Node) (acc : Option String) : Option String :=
  match n with
  | .ArrayExpression els _ => els.foldl stageElementScan acc
  | _ => acc

/-- `_visitCallExpression` (checks in source order; `_checkHasDatabaseName`
overwrites `databaseName` on every qualifying call). -/
def visitCallExpression (sel : VisitorSelection) (st : CompletionState) (n : Node) : CompletionState :=
  let st := if condUseCallSimple n || condUseCallTemplate n then { st with isUseCallExpression := true } else st
  let st := if condCollectionNameCall n then { st with isCollectionName := true } else st
  let st := if condProcessorNameCall n then { st with isStreamProcessorName := true } else st
  match useDbValue sel n with
  | some v => { st with databaseName := some v }
  | none => st

/-- `_visitMemberExpression` (checks in source order). -/
def visitMemberExpression (st : CompletionState) (n : Node) : CompletionState :=
  let st := if condAggregationCursor n then { st with isAggregationCursor := true } else st
  let st := if condFindCursor n then { st with isFindCursor := true } else st
  let st := if condCollectionSymbolMember n || condCollectionSymbolCall n then { st with isCollectionSymbol := true } else st
  let st := if condCollectionNameMember n then { st with isCollectionName := true } else st
  let st := match collectionNameValue n with
            | some v => { st with collectionName := some v }
            | none => st
  let st := if condProcessorSymbolMember n || condProcessorSymbolCall n then { st with isStreamProcessorSymbol := true } else st
  let st := if condProcessorNameMember n then { st with isSpSymbol := true, isStreamProcessorName := true } else st
  match processorNameValue n with
  | some v => { st with streamProcessorName := some v }
  | none => st

/-- `_visitExpressionStatement`. -/
def visitExpressionStatement (st : CompletionState) (n : Node) : CompletionState :=
  let st := if condGlobalSymbol n then { st with isGlobalSymbol := true } else st
  let st := if condDbSymbol n then { st with isDbSymbol := true } else st
  if condSpSymbol n then { st with isSpSymbol := true } else st

/-- `_visitObjectExpression`. -/
def visitObjectExpression (st : CompletionState) (n : Node) : CompletionState :=
  let st := if condObjectKey n then { st with isObjectKey := true } else st
  let st := if condIdentifierObjectValue n then { st with isIdentifierObjectValue := true } else st
  if condTextObjectValue n then { st with isTextObjectValue := true } else st

/-- `_visitArrayExpression`. -/
def visitArrayExpression (st : CompletionState) (n : Node) : CompletionState :=
  let st := if condIsStage n then { st with isStage := true } else st
  { st with stageOperator := stageOperatorValue n st.stageOperator }

/-- The `enter` callback of the completion traversal: the five `_visit*`
dispatchers applied in source order. -/
def visitEnter (sel : VisitorSelection) (st : CompletionState) (n : Node) : CompletionState :=
  visitArrayExpression
    (visitObjectExpression
      (visitExpressionStatement
        (visitMemberExpression (visitCallExpression sel st n) n) n) n) n

mutual
/-- Enter-only pre-order traversal (`traverse(ast, { enter })`): visit the
node, then its children in Babel visitor-key order. -/
def runNode (sel : VisitorSelection) (st : CompletionState) : Node → CompletionState
  | .MemberExpression o p c l =>
      runNode sel (runNode sel (visitEnter sel st (.MemberExpression o p c l)) o) p
  | .CallExpression cal args l =>
      runNodeList sel (runNode sel (visitEnter sel st (.CallExpression cal args l)) cal) args
  | .ObjectExpression ps l =>
      runNodeList sel (visitEnter sel st (.ObjectExpression ps l)) ps
  | .ObjectProperty k v l =>
      runNode sel (runNode sel (visitEnter sel st (.ObjectProperty k v l)) k) v
  | .ArrayExpression els l =>
      runNodeOpt sel (visitEnter sel st (.ArrayExpression els l)) els
  | .ExpressionStatement e l =>
      runNode sel (visitEnter sel st (.ExpressionStatement e l)) e
  | .Program b l =>
      runNodeList sel (visitEnter sel st (.Program b l)) b
  | n => visitEnter sel st n

def runNodeList (sel : VisitorSelection) (st : CompletionState) : List Node → CompletionState
  | [] => st
  | x :: xs => runNodeList sel (runNode sel st x) xs

def runNodeOpt (sel : VisitorSelection) (st : CompletionState) : List (Option Node) → CompletionState
  | [] => st
  | none :: xs => runNodeOpt sel st xs
  | some x :: xs => runNodeOpt sel (runNode sel st x) xs
end

/-- `_handleTriggerCharacter`: splice PLACEHOLDER into the cursor's line at
the cursor column. -/
def handleTriggerCharacter (textFromEditor : String) (position : TextPosition) : String :=
  let textLines := jsSplitLines textFromEditor
  let line := textLines.getD position.line ""
  let pre := if position.character == 0 then "" else String.mk (line.data.take position.character)
  let post := if position.character == 0 then line else String.mk (line.data.drop position.character)
  String.intercalate "\n" (textLines.set position.line (pre ++ PLACEHOLDER ++ post))

/-- `parseASTForCompletion` (the spec's `resolveContext`): inject the
sentinel, parse, and traverse; a parse failure leaves the defaults. -/
def parseASTForCompletion (parse : String → Option Node) (textFromEditor : String)
    (position : TextPosition) : CompletionState :=
  let sel : VisitorSelection := { start := position, stop := { line := 0, character := 0 } }
  match parse (handleTriggerCharacter textFromEditor position) with
  | none => defaultsForCompletion
  | some ast => runNode sel defaultsForCompletion ast

/-- A 0-based output span (`location` of the reference records; the source
converts Babel's 1-based lines with `line - 1`). -/
structure SrcSpan where
  start : TextPosition
  stop : TextPosition
  deriving DecidableEq

/-- Convert a Babel `loc` to the 0-based span stored in reference records. -/
def loc01 (l : Loc) : SrcSpan :=
  { start := { line := l.start.line - 1, character := l.start.column }
    stop := { line := l.stop.line - 1, character := l.stop.column } }

/-- `FieldReference.context`. -/
inductive FieldContext where
  | find | aggregate | update | other
  deriving DecidableEq

/-- `OperatorReference.context`. -/
inductive OpContext where
  | stage | query | aggregation | other
  deriving DecidableEq

/-- `MethodReference.target`. -/
inductive MethodTarget where
  | db | collection | cursor | other
  deriving DecidableEq

/-- `CollectionReference`. -/
structure CollectionReference where
  collectionName : String
  databaseName : Option String
  location : SrcSpan
  deriving DecidableEq

/-- `FieldReference`. -/
structure FieldReference where
  fieldName : String
  collectionName : Option String
  databaseName : Option String
  location : SrcSpan
  context : FieldContext
  deriving DecidableEq

/-- `OperatorReference`. -/
structure OperatorReference where
  operator : String
  location : SrcSpan
  context : OpContext
  deriving DecidableEq

/-- `MethodReference`. -/
structure MethodReference where
  method : String
  target : MethodTarget
  location : SrcSpan
  deriving DecidableEq

/-- `DiagnosticReferences`. -/
structure DiagnosticReferences where
  collections : List CollectionReference
  fields : List FieldReference
  operators : List OperatorReference
  methods : List MethodReference
  databaseName : Option String
  deriving DecidableEq

/-- The fresh, all-empty `references` object built by
`parseASTForDiagnostics` (also its return value on parse failure). -/
def emptyReferences : DiagnosticReferences :=
  { collections := [], fields := [], operators := [], methods := [], databaseName := none }

/-- Mutable traversal state of `parseASTForDiagnostics`: the references
being accumulated plus `currentDatabase` / `currentCollection`. -/
structure DiagState where
  refs : DiagnosticReferences
  currentDatabase : Option String
  currentCollection : Option String
  deriving DecidableEq

def initialDiagState : DiagState :=
  { refs := emptyReferences, currentDatabase := none, currentCollection := none }

def isArrayExpressionNode : Node → Bool
  | .ArrayExpression _ _ => true
  | _ => false

def isObjectExpressionNode : Node → Bool
  | .ObjectExpression _ _ => true
  | _ => false

def isObjectPropertyNode : Node → Bool
  | .ObjectProperty _ _ _ => true
  | _ => false

def isCallExpressionNode : Node → Bool
  | .CallExpression _ _ _ => true
  | _ => false

/-- The fixed accumulator-bearing stage set of the operator classifier. -/
def accumStages : List String :=
  ["$group", "$project", "$addFields", "$set", "$bucket", "$bucketAuto", "$facet", "$setWindowFields"]

/-- An object property whose identifier key is in `accumStages` — the
`stageContext` predicate passed to `path.findParent`. -/
def isAccumStageProp : Node → Bool
  | .ObjectProperty (.Identifier nm _) _ _ => accumStages.contains nm
  | _ => false

/-- Operator-context classification of the `ObjectProperty` visitor, as a
function of the ancestor chain (nearest first).  `findParent` scans the
whole chain; the `while` loop counts `ObjectExpression` nodes strictly
between the property and the nearest enclosing `ArrayExpression`. -/
def operatorContextOf (anc : List Node) : OpContext :=
  if anc.any isArrayExpressionNode then
    let depth := ((anc.takeWhile (fun m => !isArrayExpressionNode m)).filter isObjectExpressionNode).length
    if depth = 1 then .stage
    else if anc.any isAccumStageProp then .aggregation else .query
  else if anc.any isObjectPropertyNode then .query else .other

/-- Field-context classification of the `ObjectProperty` visitor: the nearest
enclosing call expression's member-callee method name. -/
def fieldContextOf (anc : List Node) : FieldContext :=
  match anc.find? isCallExpressionNode with
  | some (.CallExpression (.MemberExpression _ (.Identifier m _) _ _) _ _) =>
      if m = "find" ∨ m = "findOne" then .find
      else if m = "aggregate" then .aggregate
      else if m = "update" ∨ m = "updateOne" ∨ m = "updateMany" ∨ m = "replaceOne" then .update
      else .other
  | _ => .other

/-- The `CallExpression` visitor of `parseASTForDiagnostics`:
`use('dbname')` updates `currentDatabase` and `references.databaseName`. -/
def diagCallExpression (s : DiagState) (n : Node) : DiagState :=
  match n with
  | .CallExpression (.Identifier "use" _) [.StringLiteral v _] _ =>
      { s with currentDatabase := some v,
               refs := { s.refs with databaseName := some v } }
  | _ => s

/-- The property of a `db.x` / `db['x']` access, as read by the
`MemberExpression` visitor. -/
def memberPropName : Node → Option String
  | .Identifier nm _ => some nm
  | .StringLiteral v _ => some v
  | _ => none

/-- The `MemberExpression` visitor of `parseASTForDiagnostics`.
`parentIsCalleeCall` embeds `path.parent.type === 'CallExpression' &&
path.parent.callee === path.node`.  The `if (collectionName && node.loc)`
truthiness test makes an empty-string name fall through. -/
def diagMemberExpression (s : DiagState) (n : Node) (parentIsCalleeCall : Bool) : DiagState :=
  match n with
  | .MemberExpression (.Identifier "db" _) p _ loc =>
      let s :=
        match memberPropName p with
        | some nm =>
            if nm = "" then s
            else
              { s with currentCollection := some nm,
                       refs := { s.refs with collections :=
                         s.refs.collections ++ [{ collectionName := nm, databaseName := s.currentDatabase, location := loc01 loc }] } }
        | none => s
      if parentIsCalleeCall then
        match p with
        | .Identifier pname _ =>
            { s with refs := { s.refs with methods :=
                s.refs.methods ++ [{ method := pname, target := .db, location := loc01 loc }] } }
        | _ => s
      else s
  | .MemberExpression (.MemberExpression (.Identifier "db" _) _ _ _) (.Identifier pname _) _ loc =>
      if parentIsCalleeCall then
        { s with refs := { s.refs with methods :=
            s.refs.methods ++ [{ method := pname, target := .collection, location := loc01 loc }] } }
      else s
  | _ => s

/-- The `ObjectProperty` visitor of `parseASTForDiagnostics`: a
dollar-prefixed identifier key becomes an operator reference, any other
identifier key a field reference carrying the current namespace context. -/
def diagObjectProperty (s : DiagState) (n : Node) (anc : List Node) : DiagState :=
  match n with
  | .ObjectProperty (.Identifier keyName _) _ loc =>
      if jsStartsWith keyName "$" then
        { s with refs := { s.refs with operators :=
            s.refs.operators ++ [{ operator := keyName, location := loc01 loc, context := operatorContextOf anc }] } }
      else
        { s with refs := { s.refs with fields :=
            s.refs.fields ++ [{ fieldName := keyName, collectionName := s.currentCollection,
                                databaseName := s.currentDatabase, location := loc01 loc,
                                context := fieldContextOf anc }] } }
  | _ => s

/-- Dispatch of the three type-keyed visitors of `parseASTForDiagnostics`. -/
def visitDiag (s : DiagState) (n : Node) (anc : List Node) (parentIsCalleeCall : Bool) : DiagState :=
  match n with
  | .CallExpression _ _ _ => diagCallExpression s n
  | .MemberExpression _ _ _ _ => diagMemberExpression s n parentIsCalleeCall
  | .ObjectProperty _ _ _ => diagObjectProperty s n anc
  | _ => s

mutual
/-- Pre-order traversal for `parseASTForDiagnostics`, threading the ancestor
chain (nearest first) and whether the node is the direct callee of its
parent call expression. -/
def runDiag (anc : List Node) (parentIsCalleeCall : Bool) (s : DiagState) : Node → DiagState
  | .MemberExpression o p c l =>
      let s := visitDiag s (.MemberExpression o p c l) anc parentIsCalleeCall
      runDiag (.MemberExpression o p c l :: anc) false
        (runDiag (.MemberExpression o p c l :: anc) false s o) p
  | .CallExpression cal args l =>
      let s := visitDiag s (.CallExpression cal args l) anc parentIsCalleeCall
      runDiagList (.CallExpression cal args l :: anc)
        (runDiag (.CallExpression cal args l :: anc) true s cal) args
  | .ObjectExpression ps l =>
      let s := visitDiag s (.ObjectExpression ps l) anc parentIsCalleeCall
      runDiagList (.ObjectExpression ps l :: anc) s ps
  | .ObjectProperty k v l =>
      let s := visitDiag s (.ObjectProperty k v l) anc parentIsCalleeCall
      runDiag (.ObjectProperty k v l :: anc) false
        (runDiag (.ObjectProperty k v l :: anc) false s k) v
  | .ArrayExpression els l =>
      let s := visitDiag s (.ArrayExpression els l) anc parentIsCalleeCall
      runDiagOpt (.ArrayExpression els l :: anc) s els
  | .ExpressionStatement e l =>
      let s := visitDiag s (.ExpressionStatement e l) anc parentIsCalleeCall
      runDiag (.ExpressionStatement e l :: anc) false s e
  | .Program b l =>
      let s := visitDiag s (.Program b l) anc parentIsCalleeCall
      runDiagList (.Program b l :: anc) s b
  | n => visitDiag s n anc parentIsCalleeCall

def runDiagList (anc : List Node) (s : DiagState) : List Node → DiagState
  | [] => s
  | x :: xs => runDiagList anc (runDiag anc false s x) xs

def runDiagOpt (anc : List Node) (s : DiagState) : List (Option Node) → DiagState
  | [] => s
  | none :: xs => runDiagOpt anc s xs
  | some x :: xs => runDiagOpt anc (runDiag anc false s x) xs
end

/-- `parseASTForDiagnostics` (the spec's `extractReferences`): parse the raw
text (no PLACEHOLDER injection) and traverse; a parse failure returns the
all-empty references. -/
def parseASTForDiagnostics (parse : String → Option Node) (textFromEditor : String) : DiagnosticReferences :=
  match parse textFromEditor with
  | none => emptyReferences
  | some ast => (runDiag [] false initialDiagState ast).refs

/-- Single-line Babel `loc` on line 1 from start column `b` to end column `e`. -/
def sl (b e : Nat) : Loc := { start := { line := 1, column := b }, stop := { line := 1, column := e } }

/- Concrete documents analysed by the theorems below, and Babel's ASTs for
them.  Braces and quotes inside the string literals are written with
hexadecimal escapes (\x7b `{`, \x7d `}`, \x27 `'`). -/

def aggPlainText : String := "db.orders.aggregate([\x7b$match: \x7bqty: \x7b$gt: 5\x7d\x7d\x7d])"

def aggInjText : String := "db.orders.aggregate([\x7b$match: \x7bTRIGGER_CHARACTERqty: \x7b$gt: 5\x7d\x7d\x7d])"

/-- Babel AST of `aggPlainText`. -/
def aggPlainAst : Node :=
  .Program [.ExpressionStatement (.CallExpression
    (.MemberExpression
      (.MemberExpression (.Identifier "db" (sl 0 2)) (.Identifier "orders" (sl 3 9)) false (sl 0 9))
      (.Identifier "aggregate" (sl 10 19)) false (sl 0 19))
    [.ArrayExpression
      [some (.ObjectExpression
        [.ObjectProperty (.Identifier "$match" (sl 22 28))
          (.ObjectExpression
            [.ObjectProperty (.Identifier "qty" (sl 31 34))
              (.ObjectExpression
                [.ObjectProperty (.Identifier "$gt" (sl 37 40)) (.NumericLiteral 5 (sl 42 43)) (sl 37 43)]
                (sl 36 44)) (sl 31 44)]
            (sl 30 45)) (sl 22 45)]
        (sl 21 46))]
      (sl 20 47)] (sl 0 48)) (sl 0 48)] (sl 0 48)

/-- Babel AST of `aggInjText` (the PLACEHOLDER injected at character 31,
inside the `$match` value object, right before `qty`). -/
def aggInjAst : Node :=
  .Program [.ExpressionStatement (.CallExpression
    (.MemberExpression
      (.MemberExpression (.Identifier "db" (sl 0 2)) (.Identifier "orders" (sl 3 9)) false (sl 0 9))
      (.Identifier "aggregate" (sl 10 19)) false (sl 0 19))
    [.ArrayExpression
      [some (.ObjectExpression
        [.ObjectProperty (.Identifier "$match" (sl 22 28))
          (.ObjectExpression
            [.ObjectProperty (.Identifier "TRIGGER_CHARACTERqty" (sl 31 51))
              (.ObjectExpression
                [.ObjectProperty (.Identifier "$gt" (sl 54 57)) (.NumericLiteral 5 (sl 59 60)) (sl 54 60)]
                (sl 53 61)) (sl 31 61)]
            (sl 30 62)) (sl 22 62)]
        (sl 21 63))]
      (sl 20 64)] (sl 0 65)) (sl 0 65)] (sl 0 65)

def useText : String := "use(\x27a\x27); db.x.find(); use(\x27b\x27); db.y.find();"

def useInjAText : String := "use(\x27a\x27); db.x.find(TRIGGER_CHARACTER); use(\x27b\x27); db.y.find();"

def useInjBText : String := "use(\x27a\x27); db.x.find(); use(\x27b\x27); db.y.find(TRIGGER_CHARACTER);"

/-- Babel AST of `useInjAText` (cursor at character 20, between the
parentheses of the first `find` call, i.e. between the two `use` calls). -/
def useInjAAst : Node :=
  .Program
    [.ExpressionStatement (.CallExpression (.Identifier "use" (sl 0 3)) [.StringLiteral "a" (sl 4 7)] (sl 0 8)) (sl 0 9),
     .ExpressionStatement (.CallExpression
       (.MemberExpression
         (.MemberExpression (.Identifier "db" (sl 10 12)) (.Identifier "x" (sl 13 14)) false (sl 10 14))
         (.Identifier "find" (sl 15 19)) false (sl 10 19))
       [.Identifier "TRIGGER_CHARACTER" (sl 20 37)] (sl 10 38)) (sl 10 39),
     .ExpressionStatement (.CallExpression (.Identifier "use" (sl 40 43)) [.StringLiteral "b" (sl 44 47)] (sl 40 48)) (sl 40 49),
     .ExpressionStatement (.CallExpression
       (.MemberExpression
         (.MemberExpression (.Identifier "db" (sl 50 52)) (.Identifier "y" (sl 53 54)) false (sl 50 54))
         (.Identifier "find" (sl 55 59)) false (sl 50 59))
       [] (sl 50 61)) (sl 50 62)] (sl 0 62)

/-- Babel AST of `useInjBText` (cursor at character 43, between the
parentheses of the second `find` call, i.e. after both `use` calls). -/
def useInjBAst : Node :=
  .Program
    [.ExpressionStatement (.CallExpression (.Identifier "use" (sl 0 3)) [.StringLiteral "a" (sl 4 7)] (sl 0 8)) (sl 0 9),
     .ExpressionStatement (.CallExpression
       (.MemberExpression
         (.MemberExpression (.Identifier "db" (sl 10 12)) (.Identifier "x" (sl 13 14)) false (sl 10 14))
         (.Identifier "find" (sl 15 19)) false (sl 10 19))
       [] (sl 10 21)) (sl 10 22),
     .ExpressionStatement (.CallExpression (.Identifier "use" (sl 23 26)) [.StringLiteral "b" (sl 27 30)] (sl 23 31)) (sl 23 32),
     .ExpressionStatement (.CallExpression
       (.MemberExpression
         (.MemberExpression (.Identifier "db" (sl 33 35)) (.Identifier "y" (sl 36 37)) false (sl 33 37))
         (.Identifier "find" (sl 38 42)) false (sl 33 42))
       [.Identifier "TRIGGER_CHARACTER" (sl 43 60)] (sl 33 61)) (sl 33 62)] (sl 0 62)

def dbDotText : String := "db."

def dbDotInjText : String := "db.TRIGGER_CHARACTER"

/-- Babel AST of `dbDotInjText` (cursor at character 3, right after the dot). -/
def dbDotInjAst : Node :=
  .Program
    [.ExpressionStatement
      (.MemberExpression (.Identifier "db" (sl 0 2)) (.Identifier "TRIGGER_CHARACTER" (sl 3 20)) false (sl 0 20))
      (sl 0 20)] (sl 0 20)

def dbxText : String := "db.x; f(\x27\x27)"

def dbxInjText : String := "db.x; f(\x27TRIGGER_CHARACTER\x27)"

/-- Babel AST of `dbxInjText` (cursor at character 9, inside the string
literal argument of `f`). -/
def dbxInjAst : Node :=
  .Program
    [.ExpressionStatement
      (.MemberExpression (.Identifier "db" (sl 0 2)) (.Identifier "x" (sl 3 4)) false (sl 0 4)) (sl 0 5),
     .ExpressionStatement
      (.CallExpression (.Identifier "f" (sl 6 7)) [.StringLiteral "TRIGGER_CHARACTER" (sl 8 27)] (sl 6 28))
      (sl 6 28)] (sl 0 28)

def shopText : String := "use(\x27shop\x27); db.orders.find(\x7bstatus: \x27A\x27\x7d)"

/-- Babel AST of `shopText`. -/
def shopAst : Node :=
  .Program
    [.ExpressionStatement (.CallExpression (.Identifier "use" (sl 0 3)) [.StringLiteral "shop" (sl 4 10)] (sl 0 11)) (sl 0 12),
     .ExpressionStatement (.CallExpression
       (.MemberExpression
         (.MemberExpression (.Identifier "db" (sl 13 15)) (.Identifier "orders" (sl 16 22)) false (sl 13 22))
         (.Identifier "find" (sl 23 27)) false (sl 13 27))
       [.ObjectExpression
         [.ObjectProperty (.Identifier "status" (sl 29 35)) (.StringLiteral "A" (sl 37 40)) (sl 29 40)]
         (sl 28 41)] (sl 13 42)) (sl 13 42)] (sl 0 42)

def runCmdText : String := "db.runCommand(\x7bping: 1\x7d)"

/-- Babel AST of `runCmdText`. -/
def runCmdAst : Node :=
  .Program
    [.ExpressionStatement (.CallExpression
       (.MemberExpression (.Identifier "db" (sl 0 2)) (.Identifier "runCommand" (sl 3 13)) false (sl 0 13))
       [.ObjectExpression
         [.ObjectProperty (.Identifier "ping" (sl 15 19)) (.NumericLiteral 1 (sl 21 22)) (sl 15 22)]
         (sl 14 23)] (sl 0 24)) (sl 0 24)] (sl 0 24)

def dbEmptyText : String := "db[\x27\x27]"

/-- Babel AST of `dbEmptyText` (`db` computed-indexed by the empty string). -/
def dbEmptyAst : Node :=
  .Program
    [.ExpressionStatement
      (.MemberExpression (.Identifier "db" (sl 0 2)) (.StringLiteral "" (sl 3 5)) true (sl 0 6))
      (sl 0 6)] (sl 0 6)

/-- Modelled from the spec, §4.1 (the parsing frontend is the external
`@babel/parser` dependency, not part of this repository's sources): the
parser's output on the concrete documents analysed in this development,
`none` elsewhere. -/
def babelParse (s : String) : Option Node :=
  if s = aggInjText then some aggInjAst
  else if s = aggPlainText then some aggPlainAst
  else if s = useInjAText then some useInjAAst
  else if s = useInjBText then some useInjBAst
  else if s = dbDotInjText then some dbDotInjAst
  else if s = dbxInjText then some dbxInjAst
  else if s = shopText then some shopAst
  else if s = runCmdText then some runCmdAst
  else if s = dbEmptyText then some dbEmptyAst
  else none

/-- Left-biased choice on optional strings: the overwrite semantics of a
later assignment (first argument = the later value). -/
def oAlt : Option String → Option String → Option String
  | some v, _ => some v
  | none, b => b

theorem oAlt_assoc (a b c : Option String) : oAlt (oAlt a b) c = oAlt a (oAlt b c) := by
  cases a <;> cases b <;> rfl

theorem oAlt_none (a : Option String) : oAlt none a = a := rfl

theorem visitCallExpression_databaseName (sel : VisitorSelection) (st : CompletionState) (n : Node) :
    (visitCallExpression sel st n).databaseName = oAlt (useDbValue sel n) st.databaseName := by
  unfold visitCallExpression
  cases h : useDbValue sel n <;> simp [h, oAlt, apply_ite CompletionState.databaseName]

theorem visitMemberExpression_databaseName (st : CompletionState) (n : Node) :
    (visitMemberExpression st n).databaseName = st.databaseName := by
  unfold visitMemberExpression
  cases h1 : collectionNameValue n <;> cases h2 : processorNameValue n <;>
    simp [h1, h2, apply_ite CompletionState.databaseName]

theorem visitExpressionStatement_databaseName (st : CompletionState) (n : Node) :
    (visitExpressionStatement st n).databaseName = st.databaseName := by
  unfold visitExpressionStatement
  simp [apply_ite CompletionState.databaseName]

theorem visitObjectExpression_databaseName (st : CompletionState) (n : Node) :
    (visitObjectExpression st n).databaseName = st.databaseName := by
  unfold visitObjectExpression
  simp [apply_ite CompletionState.databaseName]

theorem visitArrayExpression_databaseName (st : CompletionState) (n : Node) :
    (visitArrayExpression st n).databaseName = st.databaseName := by
  unfold visitArrayExpression
  simp [apply_ite CompletionState.databaseName]

theorem visitEnter_databaseName (sel : VisitorSelection) (st : CompletionState) (n : Node) :
    (visitEnter sel st n).databaseName = oAlt (useDbValue sel n) st.databaseName := by
  unfold visitEnter
  rw [visitArrayExpression_databaseName, visitObjectExpression_databaseName,
      visitExpressionStatement_databaseName, visitMemberExpression_databaseName,
      visitCallExpression_databaseName]

theorem visitCallExpression_stageOperator (sel : VisitorSelection) (st : CompletionState) (n : Node) :
    (visitCallExpression sel st n).stageOperator = st.stageOperator := by
  unfold visitCallExpression
  cases h : useDbValue sel n <;> simp [h, apply_ite CompletionState.stageOperator]

theorem visitMemberExpression_stageOperator (st : CompletionState) (n : Node) :
    (visitMemberExpression st n).stageOperator = st.stageOperator := by
  unfold visitMemberExpression
  cases h1 : collectionNameValue n <;> cases h2 : processorNameValue n <;>
    simp [h1, h2, apply_ite CompletionState.stageOperator]

theorem visitExpressionStatement_stageOperator (st : CompletionState) (n : Node) :
    (visitExpressionStatement st n).stageOperator = st.stageOperator := by
  unfold visitExpressionStatement
  simp [apply_ite CompletionState.stageOperator]

theorem visitObjectExpression_stageOperator (st : CompletionState) (n : Node) :
    (visitObjectExpression st n).stageOperator = st.stageOperator := by
  unfold visitObjectExpression
  simp [apply_ite CompletionState.stageOperator]

theorem visitCallExpression_isStage (sel : VisitorSelection) (st : CompletionState) (n : Node) :
    (visitCallExpression sel st n).isStage = st.isStage := by
  unfold visitCallExpression
  cases h : useDbValue sel n <;> simp [h, apply_ite CompletionState.isStage]

theorem visitMemberExpression_isStage (st : CompletionState) (n : Node) :
    (visitMemberExpression st n).isStage = st.isStage := by
  unfold visitMemberExpression
  cases h1 : collectionNameValue n <;> cases h2 : processorNameValue n <;>
    simp [h1, h2, apply_ite CompletionState.isStage]

theorem visitExpressionStatement_isStage (st : CompletionState) (n : Node) :
    (visitExpressionStatement st n).isStage = st.isStage := by
  unfold visitExpressionStatement
  simp [apply_ite CompletionState.isStage]

theorem visitObjectExpression_isStage (st : CompletionState) (n : Node) :
    (visitObjectExpression st n).isStage = st.isStage := by
  unfold visitObjectExpression
  simp [apply_ite CompletionState.isStage]

theorem visitCallExpression_isObjectKey (sel : VisitorSelection) (st : CompletionState) (n : Node) :
    (visitCallExpression sel st n).isObjectKey = st.isObjectKey := by
  unfold visitCallExpression
  cases h : useDbValue sel n <;> simp [h, apply_ite CompletionState.isObjectKey]

theorem visitMemberExpression_isObjectKey (st : CompletionState) (n : Node) :
    (visitMemberExpression st n).isObjectKey = st.isObjectKey := by
  unfold visitMemberExpression
  cases h1 : collectionNameValue n <;> cases h2 : processorNameValue n <;>
    simp [h1, h2, apply_ite CompletionState.isObjectKey]

theorem visitExpressionStatement_isObjectKey (st : CompletionState) (n : Node) :
    (visitExpressionStatement st n).isObjectKey = st.isObjectKey := by
  unfold visitExpressionStatement
  simp [apply_ite CompletionState.isObjectKey]

theorem visitArrayExpression_isObjectKey (st : CompletionState) (n : Node) :
    (visitArrayExpression st n).isObjectKey = st.isObjectKey := by
  unfold visitArrayExpression
  simp [apply_ite CompletionState.isObjectKey]

theorem visitCallExpression_isGlobalSymbol (sel : VisitorSelection) (st : CompletionState) (n : Node) :
    (visitCallExpression sel st n).isGlobalSymbol = st.isGlobalSymbol := by
  unfold visitCallExpression
  cases h : useDbValue sel n <;> simp [h, apply_ite CompletionState.isGlobalSymbol]

theorem visitMemberExpression_isGlobalSymbol (st : CompletionState) (n : Node) :
    (visitMemberExpression st n).isGlobalSymbol = st.isGlobalSymbol := by
  unfold visitMemberExpression
  cases h1 : collectionNameValue n <;> cases h2 : processorNameValue n <;>
    simp [h1, h2, apply_ite CompletionState.isGlobalSymbol]

theorem visitObjectExpression_isGlobalSymbol (st : CompletionState) (n : Node) :
    (visitObjectExpression st n).isGlobalSymbol = st.isGlobalSymbol := by
  unfold visitObjectExpression
  simp [apply_ite CompletionState.isGlobalSymbol]

theorem visitArrayExpression_isGlobalSymbol (st : CompletionState) (n : Node) :
    (visitArrayExpression st n).isGlobalSymbol = st.isGlobalSymbol := by
  unfold visitArrayExpression
  simp [apply_ite CompletionState.isGlobalSymbol]

theorem visitArrayExpression_stageOperator (st : CompletionState) (n : Node) :
    (visitArrayExpression st n).stageOperator = stageOperatorValue n st.stageOperator := by
  unfold visitArrayExpression
  simp [apply_ite CompletionState.stageOperator]

theorem visitArrayExpression_isStage (st : CompletionState) (n : Node) :
    (visitArrayExpression st n).isStage = (st.isStage || condIsStage n) := by
  unfold visitArrayExpression
  cases h : condIsStage n <;> simp [h]

theorem visitObjectExpression_isObjectKey (st : CompletionState) (n : Node) :
    (visitObjectExpression st n).isObjectKey = (st.isObjectKey || condObjectKey n) := by
  unfold visitObjectExpression
  cases h : condObjectKey n <;> simp [h, apply_ite CompletionState.isObjectKey]

theorem visitExpressionStatement_isGlobalSymbol (st : CompletionState) (n : Node) :
    (visitExpressionStatement st n).isGlobalSymbol = (st.isGlobalSymbol || condGlobalSymbol n) := by
  unfold visitExpressionStatement
  cases h : condGlobalSymbol n <;> simp [h, apply_ite CompletionState.isGlobalSymbol]

theorem visitEnter_stageOperator (sel : VisitorSelection) (st : CompletionState) (n : Node) :
    (visitEnter sel st n).stageOperator = stageOperatorValue n st.stageOperator := by
  unfold visitEnter
  rw [visitArrayExpression_stageOperator, visitObjectExpression_stageOperator,
      visitExpressionStatement_stageOperator, visitMemberExpression_stageOperator,
      visitCallExpression_stageOperator]

theorem visitEnter_isStage (sel : VisitorSelection) (st : CompletionState) (n : Node) :
    (visitEnter sel st n).isStage = (st.isStage || condIsStage n) := by
  unfold visitEnter
  rw [visitArrayExpression_isStage, visitObjectExpression_isStage,
      visitExpressionStatement_isStage, visitMemberExpression_isStage,
      visitCallExpression_isStage]

theorem visitEnter_isObjectKey (sel : VisitorSelection) (st : CompletionState) (n : Node) :
    (visitEnter sel st n).isObjectKey = (st.isObjectKey || condObjectKey n) := by
  unfold visitEnter
  rw [visitArrayExpression_isObjectKey, visitObjectExpression_isObjectKey,
      visitExpressionStatement_isObjectKey, visitMemberExpression_isObjectKey,
      visitCallExpression_isObjectKey]

theorem visitEnter_isGlobalSymbol (sel : VisitorSelection) (st : CompletionState) (n : Node) :
    (visitEnter sel st n).isGlobalSymbol = (st.isGlobalSymbol || condGlobalSymbol n) := by
  unfold visitEnter
  rw [visitArrayExpression_isGlobalSymbol, visitObjectExpression_isGlobalSymbol,
      visitExpressionStatement_isGlobalSymbol, visitMemberExpression_isGlobalSymbol,
      visitCallExpression_isGlobalSymbol]

mutual
/-- The value of the last `use(…)` call (in pre-order traversal order, which
is document order for the non-overlapping qualifying calls) that has a
single string-literal argument and ends lexically at or before the cursor;
`none` when no call qualifies.  Children are visited after their parent, and
later siblings after earlier ones, so their contribution takes priority. -/
def lastUseNode (sel : VisitorSelection) : Node → Option String
  | .MemberExpression o p c l =>
      oAlt (oAlt (lastUseNode sel p) (lastUseNode sel o)) (useDbValue sel (.MemberExpression o p c l))
  | .CallExpression cal args l =>
      oAlt (oAlt (lastUseList sel args) (lastUseNode sel cal)) (useDbValue sel (.CallExpression cal args l))
  | .ObjectExpression ps l => oAlt (lastUseList sel ps) (useDbValue sel (.ObjectExpression ps l))
  | .ObjectProperty k v l =>
      oAlt (oAlt (lastUseNode sel v) (lastUseNode sel k)) (useDbValue sel (.ObjectProperty k v l))
  | .ArrayExpression els l => oAlt (lastUseOpt sel els) (useDbValue sel (.ArrayExpression els l))
  | .ExpressionStatement e l => oAlt (lastUseNode sel e) (useDbValue sel (.ExpressionStatement e l))
  | .Program b l => oAlt (lastUseList sel b) (useDbValue sel (.Program b l))
  | n => useDbValue sel n

def lastUseList (sel : VisitorSelection) : List Node → Option String
  | [] => none
  | x :: xs => oAlt (lastUseList sel xs) (lastUseNode sel x)

def lastUseOpt (sel : VisitorSelection) : List (Option Node) → Option String
  | [] => none
  | none :: xs => lastUseOpt sel xs
  | some x :: xs => oAlt (lastUseOpt sel xs) (lastUseNode sel x)
end

mutual
/-- The `databaseName` field after traversing a node is the last qualifying
`use` call's value in the subtree, falling back to the incoming state. -/
theorem runNode_databaseName (sel : VisitorSelection) :
    (n : Node) → ∀ st : CompletionState,
      (runNode sel st n).databaseName = oAlt (lastUseNode sel n) st.databaseName
  | .MemberExpression o p c l, st => by
      rw [runNode, lastUseNode, runNode_databaseName sel p, runNode_databaseName sel o,
          visitEnter_databaseName, oAlt_assoc, oAlt_assoc]
  | .CallExpression cal args l, st => by
      rw [runNode, lastUseNode, runNodeList_databaseName sel args, runNode_databaseName sel cal,
          visitEnter_databaseName, oAlt_assoc, oAlt_assoc]
  | .ObjectExpression ps l, st => by
      rw [runNode, lastUseNode, runNodeList_databaseName sel ps, visitEnter_databaseName, oAlt_assoc]
  | .ObjectProperty k v l, st => by
      rw [runNode, lastUseNode, runNode_databaseName sel v, runNode_databaseName sel k,
          visitEnter_databaseName, oAlt_assoc, oAlt_assoc]
  | .ArrayExpression els l, st => by
      rw [runNode, lastUseNode, runNodeOpt_databaseName sel els, visitEnter_databaseName, oAlt_assoc]
  | .ExpressionStatement e l, st => by
      rw [runNode, lastUseNode, runNode_databaseName sel e, visitEnter_databaseName, oAlt_assoc]
  | .Program b l, st => by
      rw [runNode, lastUseNode, runNodeList_databaseName sel b, visitEnter_databaseName, oAlt_assoc]
  | .Identifier nm l, st => by
      rw [runNode, lastUseNode, visitEnter_databaseName]
      all_goals (intros; simp_all)
  | .StringLiteral v l, st => by
      rw [runNode, lastUseNode, visitEnter_databaseName]
      all_goals (intros; simp_all)
  | .TemplateLiteral q l, st => by
      rw [runNode, lastUseNode, visitEnter_databaseName]
      all_goals (intros; simp_all)
  | .NumericLiteral v l, st => by
      rw [runNode, lastUseNode, visitEnter_databaseName]
      all_goals (intros; simp_all)

theorem runNodeList_databaseName (sel : VisitorSelection) :
    (l : List Node) → ∀ st : CompletionState,
      (runNodeList sel st l).databaseName = oAlt (lastUseList sel l) st.databaseName
  | [], st => by rw [runNodeList, lastUseList]; rfl
  | x :: xs, st => by
      rw [runNodeList, lastUseList, runNodeList_databaseName sel xs, runNode_databaseName sel x,
          oAlt_assoc]

theorem runNodeOpt_databaseName (sel : VisitorSelection) :
    (l : List (Option Node)) → ∀ st : CompletionState,
      (runNodeOpt sel st l).databaseName = oAlt (lastUseOpt sel l) st.databaseName
  | [], st => by rw [runNodeOpt, lastUseOpt]; rfl
  | none :: xs, st => by rw [runNodeOpt, lastUseOpt, runNodeOpt_databaseName sel xs]
  | some x :: xs, st => by
      rw [runNodeOpt, lastUseOpt, runNodeOpt_databaseName sel xs, runNode_databaseName sel x,
          oAlt_assoc]
end

mutual
/-- Whether some node of the subtree (the root included) satisfies `cond`. -/
def anyCondNode (cond : Node → Bool) : Node → Bool
  | .MemberExpression o p c l =>
      cond (.MemberExpression o p c l) || anyCondNode cond o || anyCondNode cond p
  | .CallExpression cal args l =>
      cond (.CallExpression cal args l) || anyCondNode cond cal || anyCondList cond args
  | .ObjectExpression ps l => cond (.ObjectExpression ps l) || anyCondList cond ps
  | .ObjectProperty k v l =>
      cond (.ObjectProperty k v l) || anyCondNode cond k || anyCondNode cond v
  | .ArrayExpression els l => cond (.ArrayExpression els l) || anyCondOpt cond els
  | .ExpressionStatement e l => cond (.ExpressionStatement e l) || anyCondNode cond e
  | .Program b l => cond (.Program b l) || anyCondList cond b
  | n => cond n

def anyCondList (cond : Node → Bool) : List Node → Bool
  | [] => false
  | x :: xs => anyCondNode cond x || anyCondList cond xs

def anyCondOpt (cond : Node → Bool) : List (Option Node) → Bool
  | [] => false
  | none :: xs => anyCondOpt cond xs
  | some x :: xs => anyCondNode cond x || anyCondOpt cond xs
end

mutual
/-- Generic accumulation law for the completion traversal: a Boolean field
that every single visit ors with a node condition accumulates, over a whole
subtree, the disjunction of that condition over the subtree. -/
theorem runNode_orField (sel : VisitorSelection) (f : CompletionState → Bool) (cond : Node → Bool)
    (hf : ∀ st m, f (visitEnter sel st m) = (f st || cond m)) :
    (n : Node) → ∀ st : CompletionState, f (runNode sel st n) = (f st || anyCondNode cond n)
  | .MemberExpression o p c l, st => by
      rw [runNode, anyCondNode, runNode_orField sel f cond hf p, runNode_orField sel f cond hf o, hf]
      simp [Bool.or_assoc]
  | .CallExpression cal args l, st => by
      rw [runNode, anyCondNode, runNodeList_orField sel f cond hf args,
          runNode_orField sel f cond hf cal, hf]
      simp [Bool.or_assoc]
  | .ObjectExpression ps l, st => by
      rw [runNode, anyCondNode, runNodeList_orField sel f cond hf ps, hf]
      simp [Bool.or_assoc]
  | .ObjectProperty k v l, st => by
      rw [runNode, anyCondNode, runNode_orField sel f cond hf v, runNode_orField sel f cond hf k, hf]
      simp [Bool.or_assoc]
  | .ArrayExpression els l, st => by
      rw [runNode, anyCondNode, runNodeOpt_orField sel f cond hf els, hf]
      simp [Bool.or_assoc]
  | .ExpressionStatement e l, st => by
      rw [runNode, anyCondNode, runNode_orField sel f cond hf e, hf]
      simp [Bool.or_assoc]
  | .Program b l, st => by
      rw [runNode, anyCondNode, runNodeList_orField sel f cond hf b, hf]
      simp [Bool.or_assoc]
  | .Identifier nm l, st => by
      rw [runNode, anyCondNode, hf]
      all_goals (intros; simp_all)
  | .StringLiteral v l, st => by
      rw [runNode, anyCondNode, hf]
      all_goals (intros; simp_all)
  | .TemplateLiteral q l, st => by
      rw [runNode, anyCondNode, hf]
      all_goals (intros; simp_all)
  | .NumericLiteral v l, st => by
      rw [runNode, anyCondNode, hf]
      all_goals (intros; simp_all)

theorem runNodeList_orField (sel : VisitorSelection) (f : CompletionState → Bool) (cond : Node → Bool)
    (hf : ∀ st m, f (visitEnter sel st m) = (f st || cond m)) :
    (l : List Node) → ∀ st : CompletionState, f (runNodeList sel st l) = (f st || anyCondList cond l)
  | [], st => by rw [runNodeList, anyCondList]; simp
  | x :: xs, st => by
      rw [runNodeList, anyCondList, runNodeList_orField sel f cond hf xs,
          runNode_orField sel f cond hf x]
      simp [Bool.or_assoc]

theorem runNodeOpt_orField (sel : VisitorSelection) (f : CompletionState → Bool) (cond : Node → Bool)
    (hf : ∀ st m, f (visitEnter sel st m) = (f st || cond m)) :
    (l : List (Option Node)) → ∀ st : CompletionState, f (runNodeOpt sel st l) = (f st || anyCondOpt cond l)
  | [], st => by rw [runNodeOpt, anyCondOpt]; simp
  | none :: xs, st => by rw [runNodeOpt, anyCondOpt, runNodeOpt_orField sel f cond hf xs]
  | some x :: xs, st => by
      rw [runNodeOpt, anyCondOpt, runNodeOpt_orField sel f cond hf xs,
          runNode_orField sel f cond hf x]
      simp [Bool.or_assoc]
end

mutual
/-- No identifier in the subtree contains PLACEHOLDER (the situation after
injection when the sentinel landed inside a string or template literal, the
sentinel being assumed not to collide with user-typed identifiers). -/
def identFreeNode : Node → Bool
  | .Identifier nm _ => !jsIncludes nm PLACEHOLDER
  | .MemberExpression o p _ _ => identFreeNode o && identFreeNode p
  | .CallExpression c args _ => identFreeNode c && identFreeList args
  | .ObjectExpression ps _ => identFreeList ps
  | .ObjectProperty k v _ => identFreeNode k && identFreeNode v
  | .ArrayExpression els _ => identFreeOpt els
  | .ExpressionStatement e _ => identFreeNode e
  | .Program b _ => identFreeList b
  | _ => true

def identFreeList : List Node → Bool
  | [] => true
  | x :: xs => identFreeNode x && identFreeList xs

def identFreeOpt : List (Option Node) → Bool
  | [] => true
  | none :: xs => identFreeOpt xs
  | some x :: xs => identFreeNode x && identFreeOpt xs
end

theorem identFree_propKey (p : Node) (h : identFreeNode p = true) :
    propHasPlaceholderKey p = false := by
  cases p with
  | ObjectProperty k v l =>
      cases k with
      | Identifier nm kl =>
          simp only [identFreeNode, Bool.and_eq_true] at h
          simp only [identFreeNode, Bool.not_eq_true'] at h
          simp [propHasPlaceholderKey, h.1]
      | _ => simp [propHasPlaceholderKey]
  | _ => simp [propHasPlaceholderKey]

theorem identFree_anyKey (ps : List Node) (h : identFreeList ps = true) :
    ps.any propHasPlaceholderKey = false := by
  induction ps with
  | nil => rfl
  | cons x xs ih =>
      simp only [identFreeList, Bool.and_eq_true] at h
      simp [identFree_propKey x h.1, ih h.2]

theorem identFree_elementKey (els : List (Option Node)) (h : identFreeOpt els = true) :
    els.any elementHasPlaceholderKey = false := by
  induction els with
  | nil => rfl
  | cons e xs ih =>
      cases e with
      | none =>
          simp only [identFreeOpt] at h
          simp [elementHasPlaceholderKey, ih h]
      | some x =>
          simp only [identFreeOpt, Bool.and_eq_true] at h
          have hx : elementHasPlaceholderKey (some x) = false := by
            cases x with
            | ObjectExpression ps l =>
                have := h.1
                simp only [identFreeNode] at this
                simp [elementHasPlaceholderKey, identFree_anyKey ps this]
            | _ => simp [elementHasPlaceholderKey]
          simp [hx, ih h.2]

theorem identFree_condObjectKey (n : Node) (h : identFreeNode n = true) :
    condObjectKey n = false := by
  cases n with
  | ObjectExpression ps l =>
      simp only [identFreeNode] at h
      simp [condObjectKey, identFree_anyKey ps h]
  | _ => simp [condObjectKey]

theorem identFree_condIsStage (n : Node) (h : identFreeNode n = true) :
    condIsStage n = false := by
  cases n with
  | ArrayExpression els l =>
      simp only [identFreeNode] at h
      simp [condIsStage, identFree_elementKey els h]
  | _ => simp [condIsStage]

theorem identFree_condGlobalSymbol (n : Node) (h : identFreeNode n = true) :
    condGlobalSymbol n = false := by
  cases n with
  | ExpressionStatement e l =>
      cases e with
      | Identifier nm kl =>
          simp only [identFreeNode, Bool.not_eq_true'] at h
          simpa [condGlobalSymbol, PLACEHOLDER] using h
      | _ => simp [condGlobalSymbol]
  | _ => simp [condGlobalSymbol]

mutual
/-- If a node condition fails on every identifier-clean node, its subtree
disjunction fails on identifier-clean subtrees. -/
theorem anyCond_of_identFree (cond : Node → Bool)
    (hc : ∀ m, identFreeNode m = true → cond m = false) :
    (n : Node) → identFreeNode n = true → anyCondNode cond n = false
  | .MemberExpression o p c l, h => by
      have hh := h
      simp only [identFreeNode, Bool.and_eq_true] at hh
      rw [anyCondNode, hc _ h, anyCond_of_identFree cond hc o hh.1,
          anyCond_of_identFree cond hc p hh.2]
      rfl
  | .CallExpression cal args l, h => by
      have hh := h
      simp only [identFreeNode, Bool.and_eq_true] at hh
      rw [anyCondNode, hc _ h, anyCond_of_identFree cond hc cal hh.1,
          anyCondList_of_identFree cond hc args hh.2]
      rfl
  | .ObjectExpression ps l, h => by
      have hh := h
      simp only [identFreeNode] at hh
      rw [anyCondNode, hc _ h, anyCondList_of_identFree cond hc ps hh]
      rfl
  | .ObjectProperty k v l, h => by
      have hh := h
      simp only [identFreeNode, Bool.and_eq_true] at hh
      rw [anyCondNode, hc _ h, anyCond_of_identFree cond hc k hh.1,
          anyCond_of_identFree cond hc v hh.2]
      rfl
  | .ArrayExpression els l, h => by
      have hh := h
      simp only [identFreeNode] at hh
      rw [anyCondNode, hc _ h, anyCondOpt_of_identFree cond hc els hh]
      rfl
  | .ExpressionStatement e l, h => by
      have hh := h
      simp only [identFreeNode] at hh
      rw [anyCondNode, hc _ h, anyCond_of_identFree cond hc e hh]
      rfl
  | .Program b l, h => by
      have hh := h
      simp only [identFreeNode] at hh
      rw [anyCondNode, hc _ h, anyCondList_of_identFree cond hc b hh]
      rfl
  | .Identifier nm l, h => by
      rw [anyCondNode, hc _ h]
      all_goals (intros; simp_all)
  | .StringLiteral v l, h => by
      rw [anyCondNode, hc _ h]
      all_goals (intros; simp_all)
  | .TemplateLiteral q l, h => by
      rw [anyCondNode, hc _ h]
      all_goals (intros; simp_all)
  | .NumericLiteral v l, h => by
      rw [anyCondNode, hc _ h]
      all_goals (intros; simp_all)

theorem anyCondList_of_identFree (cond : Node → Bool)
    (hc : ∀ m, identFreeNode m = true → cond m = false) :
    (l : List Node) → identFreeList l = true → anyCondList cond l = false
  | [], _ => by rw [anyCondList]
  | x :: xs, h => by
      have hh := h
      simp only [identFreeList, Bool.and_eq_true] at hh
      rw [anyCondList, anyCond_of_identFree cond hc x hh.1,
          anyCondList_of_identFree cond hc xs hh.2]
      rfl

theorem anyCondOpt_of_identFree (cond : Node → Bool)
    (hc : ∀ m, identFreeNode m = true → cond m = false) :
    (l : List (Option Node)) → identFreeOpt l = true → anyCondOpt cond l = false
  | [], _ => by rw [anyCondOpt]
  | none :: xs, h => by
      have hh := h
      simp only [identFreeOpt] at hh
      rw [anyCondOpt, anyCondOpt_of_identFree cond hc xs hh]
  | some x :: xs, h => by
      have hh := h
      simp only [identFreeOpt, Bool.and_eq_true] at hh
      rw [anyCondOpt, anyCond_of_identFree cond hc x hh.1,
          anyCondOpt_of_identFree cond hc xs hh.2]
      rfl
end

mutual
/-- Accumulator mirror of the traversal's effect on the `stageOperator`
field: each visited node applies `stageOperatorValue`, node before children,
children left to right. -/
def stageFoldNode : Node → Option String → Option String
  | .MemberExpression o p c l, acc =>
      stageFoldNode p (stageFoldNode o (stageOperatorValue (.MemberExpression o p c l) acc))
  | .CallExpression cal args l, acc =>
      stageFoldList args (stageFoldNode cal (stageOperatorValue (.CallExpression cal args l) acc))
  | .ObjectExpression ps l, acc => stageFoldList ps (stageOperatorValue (.ObjectExpression ps l) acc)
  | .ObjectProperty k v l, acc =>
      stageFoldNode v (stageFoldNode k (stageOperatorValue (.ObjectProperty k v l) acc))
  | .ArrayExpression els l, acc => stageFoldOpt els (stageOperatorValue (.ArrayExpression els l) acc)
  | .ExpressionStatement e l, acc => stageFoldNode e (stageOperatorValue (.ExpressionStatement e l) acc)
  | .Program b l, acc => stageFoldList b (stageOperatorValue (.Program b l) acc)
  | n, acc => stageOperatorValue n acc

def stageFoldList : List Node → Option String → Option String
  | [], acc => acc
  | x :: xs, acc => stageFoldList xs (stageFoldNode x acc)

def stageFoldOpt : List (Option Node) → Option String → Option String
  | [], acc => acc
  | none :: xs, acc => stageFoldOpt xs acc
  | some x :: xs, acc => stageFoldOpt xs (stageFoldNode x acc)
end

mutual
/-- The `stageOperator` field after traversing a node is the accumulator
fold of `stageOperatorValue` over the subtree in visit order. -/
theorem runNode_stageOperator (sel : VisitorSelection) :
    (n : Node) → ∀ st : CompletionState,
      (runNode sel st n).stageOperator = stageFoldNode n st.stageOperator
  | .MemberExpression o p c l, st => by
      rw [runNode, stageFoldNode, runNode_stageOperator sel p, runNode_stageOperator sel o,
          visitEnter_stageOperator]
  | .CallExpression cal args l, st => by
      rw [runNode, stageFoldNode, runNodeList_stageOperator sel args,
          runNode_stageOperator sel cal, visitEnter_stageOperator]
  | .ObjectExpression ps l, st => by
      rw [runNode, stageFoldNode, runNodeList_stageOperator sel ps, visitEnter_stageOperator]
  | .ObjectProperty k v l, st => by
      rw [runNode, stageFoldNode, runNode_stageOperator sel v, runNode_stageOperator sel k,
          visitEnter_stageOperator]
  | .ArrayExpression els l, st => by
      rw [runNode, stageFoldNode, runNodeOpt_stageOperator sel els, visitEnter_stageOperator]
  | .ExpressionStatement e l, st => by
      rw [runNode, stageFoldNode, runNode_stageOperator sel e, visitEnter_stageOperator]
  | .Program b l, st => by
      rw [runNode, stageFoldNode, runNodeList_stageOperator sel b, visitEnter_stageOperator]
  | .Identifier nm l, st => by
      rw [runNode, stageFoldNode, visitEnter_stageOperator]
      all_goals (intros; simp_all)
  | .StringLiteral v l, st => by
      rw [runNode, stageFoldNode, visitEnter_stageOperator]
      all_goals (intros; simp_all)
  | .TemplateLiteral q l, st => by
      rw [runNode, stageFoldNode, visitEnter_stageOperator]
      all_goals (intros; simp_all)
  | .NumericLiteral v l, st => by
      rw [runNode, stageFoldNode, visitEnter_stageOperator]
      all_goals (intros; simp_all)

theorem runNodeList_stageOperator (sel : VisitorSelection) :
    (l : List Node) → ∀ st : CompletionState,
      (runNodeList sel st l).stageOperator = stageFoldList l st.stageOperator
  | [], st => by rw [runNodeList, stageFoldList]
  | x :: xs, st => by
      rw [runNodeList, stageFoldList, runNodeList_stageOperator sel xs, runNode_stageOperator sel x]

theorem runNodeOpt_stageOperator (sel : VisitorSelection) :
    (l : List (Option Node)) → ∀ st : CompletionState,
      (runNodeOpt sel st l).stageOperator = stageFoldOpt l st.stageOperator
  | [], st => by rw [runNodeOpt, stageFoldOpt]
  | none :: xs, st => by rw [runNodeOpt, stageFoldOpt, runNodeOpt_stageOperator sel xs]
  | some x :: xs, st => by
      rw [runNodeOpt, stageFoldOpt, runNodeOpt_stageOperator sel xs, runNode_stageOperator sel x]
end

/-- A value object nested `d` object levels deep whose innermost property
key is `pk` (the key carrying the injected PLACEHOLDER); the intermediate
levels use key `ik`.  Locations are immaterial to the checks involved. -/
def nestObj (pk ik : String) : Nat → Node
  | 0 => .ObjectExpression [.ObjectProperty (.Identifier pk (sl 0 0)) (.NumericLiteral 1 (sl 0 0)) (sl 0 0)] (sl 0 0)
  | d + 1 => .ObjectExpression [.ObjectProperty (.Identifier ik (sl 0 0)) (nestObj pk ik d) (sl 0 0)] (sl 0 0)

/-- `db.orders.aggregate([{ ok: <nestObj pk ik d> }])`: a pipeline whose
single stage is keyed `ok` and whose cursor-carrying key sits `d + 1` object
levels below the stage key. -/
def stageFamilyAst (ok pk ik : String) (d : Nat) : Node :=
  .Program [.ExpressionStatement (.CallExpression
    (.MemberExpression
      (.MemberExpression (.Identifier "db" (sl 0 0)) (.Identifier "orders" (sl 0 0)) false (sl 0 0))
      (.Identifier "aggregate" (sl 0 0)) false (sl 0 0))
    [.ArrayExpression [some (.ObjectExpression
        [.ObjectProperty (.Identifier ok (sl 0 0)) (nestObj pk ik d) (sl 0 0)] (sl 0 0))] (sl 0 0)]
    (sl 0 0)) (sl 0 0)] (sl 0 0)

theorem hasKey_nest (pk ik : String) (d : Nat) (hpk : jsIncludes pk PLACEHOLDER = true) :
    hasPlaceholderKeyInTree (nestObj pk ik d) = true := by
  induction d with
  | zero =>
      simp [nestObj, hasPlaceholderKeyInTree, hasPlaceholderKeyInTreeList, hpk]
  | succ d ih =>
      simp [nestObj, hasPlaceholderKeyInTree, hasPlaceholderKeyInTreeList, ih]

theorem stageFold_nest (pk ik : String) (d : Nat) (acc : Option String) :
    stageFoldNode (nestObj pk ik d) acc = acc := by
  induction d generalizing acc with
  | zero =>
      simp [nestObj, stageFoldNode, stageFoldList, stageOperatorValue]
  | succ d ih =>
      simp [nestObj, stageFoldNode, stageFoldList, stageOperatorValue, ih]

theorem anyCondIsStage_nest (pk ik : String) (d : Nat) :
    anyCondNode condIsStage (nestObj pk ik d) = false := by
  induction d with
  | zero =>
      simp [nestObj, anyCondNode, anyCondList, condIsStage]
  | succ d ih =>
      simp [nestObj, anyCondNode, anyCondList, condIsStage, ih]

theorem stagePropScan_nest (pk ik ok : String) (d : Nat) (lk lp : Loc) (acc : Option String)
    (hpk : jsIncludes pk PLACEHOLDER = true) :
    stagePropScan acc (.ObjectProperty (.Identifier ok lk) (nestObj pk ik d) lp) = some ok := by
  have hkey := hasKey_nest pk ik d hpk
  cases d with
  | zero =>
      simp only [nestObj] at hkey ⊢
      simp [stagePropScan, hkey]
  | succ d =>
      simp only [nestObj] at hkey ⊢
      simp [stagePropScan, hkey]

theorem stageFamily_stageOperator (ok pk ik : String) (d : Nat) (sel : VisitorSelection)
    (hpk : jsIncludes pk PLACEHOLDER = true) :
    (runNode sel defaultsForCompletion (stageFamilyAst ok pk ik d)).stageOperator = some ok := by
  rw [runNode_stageOperator]
  show stageFoldNode (stageFamilyAst ok pk ik d) none = some ok
  simp only [stageFamilyAst, stageFoldNode, stageFoldList, stageFoldOpt, stageOperatorValue,
    List.foldl, stageElementScan]
  rw [stagePropScan_nest pk ik ok d _ _ _ hpk, stageFold_nest]

theorem stageFamily_isStage (ok pk ik : String) (d : Nat) (sel : VisitorSelection)
    (hok : jsIncludes ok PLACEHOLDER = false) :
    (runNode sel defaultsForCompletion (stageFamilyAst ok pk ik d)).isStage = false := by
  rw [runNode_orField sel (fun st => st.isStage) condIsStage (visitEnter_isStage sel)]
  show (false || anyCondNode condIsStage (stageFamilyAst ok pk ik d)) = false
  simp [stageFamilyAst, anyCondNode, anyCondList, anyCondOpt, condIsStage,
    elementHasPlaceholderKey, propHasPlaceholderKey, hok, anyCondIsStage_nest]

/-- Modelled from the spec's wording of the operator-classification rule:
depth exactly 1 relative to the nearest enclosing array ⇒ `stage`; depth
greater than 1 ⇒ `aggregation` when some enclosing object property key is in
the accumulator-bearing stage set, else `query`; no enclosing array ⇒
`query` when an object property encloses the key, else `other`.  (The spec
leaves an in-array depth of 0 unspecified; it cannot occur for a key of an
object literal, whose immediate parent is an object expression.) -/
def specOperatorContext (anc : List Node) : OpContext :=
  if anc.any isArrayExpressionNode then
    let depth := ((anc.takeWhile (fun m => !isArrayExpressionNode m)).filter isObjectExpressionNode).length
    if depth = 1 then .stage
    else if 1 < depth then (if anc.any isAccumStageProp then .aggregation else .query)
    else .other
  else if anc.any isObjectPropertyNode then .query else .other

theorem operatorContext_eq_spec (anc : List Node)
    (h : anc.any isArrayExpressionNode = true →
      1 ≤ ((anc.takeWhile (fun m => !isArrayExpressionNode m)).filter isObjectExpressionNode).length) :
    operatorContextOf anc = specOperatorContext anc := by
  unfold operatorContextOf specOperatorContext
  by_cases ha : anc.any isArrayExpressionNode = true
  · have hd := h ha
    by_cases h1 : ((anc.takeWhile (fun m => !isArrayExpressionNode m)).filter isObjectExpressionNode).length = 1
    · simp [ha, h1]
    · have h2 : 1 < ((anc.takeWhile (fun m => !isArrayExpressionNode m)).filter isObjectExpressionNode).length := by
        omega
      simp [ha, h1, h2]
  · simp [ha]

/-- Every method reference in the list targets `db` or `collection`. -/
def methodTargetsOK (l : List MethodReference) : Bool :=
  l.all fun m => m.target == MethodTarget.db || m.target == MethodTarget.collection

theorem visitDiag_methodsOK (s : DiagState) (n : Node) (anc : List Node) (b : Bool)
    (h : methodTargetsOK s.refs.methods = true) :
    methodTargetsOK (visitDiag s n anc b).refs.methods = true := by
  cases n with
  | CallExpression cal args l =>
      simp only [visitDiag]
      unfold diagCallExpression
      split <;> simp_all
  | MemberExpression o p c l =>
      simp only [visitDiag]
      unfold diagMemberExpression
      repeat' split
      all_goals try simp_all [methodTargetsOK, List.all_append]
  | ObjectProperty k v l =>
      simp only [visitDiag]
      unfold diagObjectProperty
      repeat' split <;> simp_all
  | _ => exact h

mutual
/-- The diagnostics traversal only ever pushes method references targeting
`db` or `collection`. -/
theorem runDiag_methodsOK :
    (n : Node) → ∀ (anc : List Node) (b : Bool) (s : DiagState),
      methodTargetsOK s.refs.methods = true →
      methodTargetsOK (runDiag anc b s n).refs.methods = true
  | .MemberExpression o p c l, anc, b, s, h => by
      rw [runDiag]
      exact runDiag_methodsOK p _ _ _ (runDiag_methodsOK o _ _ _ (visitDiag_methodsOK _ _ _ _ h))
  | .CallExpression cal args l, anc, b, s, h => by
      rw [runDiag]
      exact runDiagList_methodsOK args _ _ (runDiag_methodsOK cal _ _ _ (visitDiag_methodsOK _ _ _ _ h))
  | .ObjectExpression ps l, anc, b, s, h => by
      rw [runDiag]
      exact runDiagList_methodsOK ps _ _ (visitDiag_methodsOK _ _ _ _ h)
  | .ObjectProperty k v l, anc, b, s, h => by
      rw [runDiag]
      exact runDiag_methodsOK v _ _ _ (runDiag_methodsOK k _ _ _ (visitDiag_methodsOK _ _ _ _ h))
  | .ArrayExpression els l, anc, b, s, h => by
      rw [runDiag]
      exact runDiagOpt_methodsOK els _ _ (visitDiag_methodsOK _ _ _ _ h)
  | .ExpressionStatement e l, anc, b, s, h => by
      rw [runDiag]
      exact runDiag_methodsOK e _ _ _ (visitDiag_methodsOK _ _ _ _ h)
  | .Program bd l, anc, b, s, h => by
      rw [runDiag]
      exact runDiagList_methodsOK bd _ _ (visitDiag_methodsOK _ _ _ _ h)
  | .Identifier nm l, anc, b, s, h => by
      rw [runDiag]
      · exact visitDiag_methodsOK _ _ _ _ h
      all_goals (intros; simp_all)
  | .StringLiteral v l, anc, b, s, h => by
      rw [runDiag]
      · exact visitDiag_methodsOK _ _ _ _ h
      all_goals (intros; simp_all)
  | .TemplateLiteral q l, anc, b, s, h => by
      rw [runDiag]
      · exact visitDiag_methodsOK _ _ _ _ h
      all_goals (intros; simp_all)
  | .NumericLiteral v l, anc, b, s, h => by
      rw [runDiag]
      · exact visitDiag_methodsOK _ _ _ _ h
      all_goals (intros; simp_all)

theorem runDiagList_methodsOK :
    (l : List Node) → ∀ (anc : List Node) (s : DiagState),
      methodTargetsOK s.refs.methods = true →
      methodTargetsOK (runDiagList anc s l).refs.methods = true
  | [], anc, s, h => by rw [runDiagList]; exact h
  | x :: xs, anc, s, h => by
      rw [runDiagList]
      exact runDiagList_methodsOK xs _ _ (runDiag_methodsOK x _ _ _ h)

theorem runDiagOpt_methodsOK :
    (l : List (Option Node)) → ∀ (anc : List Node) (s : DiagState),
      methodTargetsOK s.refs.methods = true →
      methodTargetsOK (runDiagOpt anc s l).refs.methods = true
  | [], anc, s, h => by rw [runDiagOpt]; exact h
  | none :: xs, anc, s, h => by
      rw [runDiagOpt]
      exact runDiagOpt_methodsOK xs _ _ h
  | some x :: xs, anc, s, h => by
      rw [runDiagOpt]
      exact runDiagOpt_methodsOK xs _ _ (runDiag_methodsOK x _ _ _ h)
end

/-- The collection name that a single visit of a member expression records:
object is the bare identifier `db` and the property is an identifier or
string literal whose name is non-empty (the truthiness guard). -/
def dbMemberName? : Node → Option String
  | .MemberExpression (.Identifier "db" _) p _ _ =>
      (match memberPropName p with
       | some nm => if nm = "" then none else some nm
       | none => none)
  | _ => none

mutual
/-- Collection names recorded over a subtree in visit order. -/
def dbCollectionsNode : Node → List String
  | .MemberExpression o p c l =>
      (dbMemberName? (.MemberExpression o p c l)).toList ++ (dbCollectionsNode o ++ dbCollectionsNode p)
  | .CallExpression cal args _ => dbCollectionsNode cal ++ dbCollectionsList args
  | .ObjectExpression ps _ => dbCollectionsList ps
  | .ObjectProperty k v _ => dbCollectionsNode k ++ dbCollectionsNode v
  | .ArrayExpression els _ => dbCollectionsOpt els
  | .ExpressionStatement e _ => dbCollectionsNode e
  | .Program b _ => dbCollectionsList b
  | _ => []

def dbCollectionsList : List Node → List String
  | [] => []
  | x :: xs => dbCollectionsNode x ++ dbCollectionsList xs

def dbCollectionsOpt : List (Option Node) → List String
  | [] => []
  | none :: xs => dbCollectionsOpt xs
  | some x :: xs => dbCollectionsNode x ++ dbCollectionsOpt xs
end

theorem visitDiag_collections (s : DiagState) (n : Node) (anc : List Node) (b : Bool) :
    (visitDiag s n anc b).refs.collections.map (fun c => c.collectionName)
      = s.refs.collections.map (fun c => c.collectionName) ++ (dbMemberName? n).toList := by
  cases n with
  | CallExpression cal args l =>
      simp only [visitDiag]
      unfold diagCallExpression
      repeat' split
      all_goals try simp_all [dbMemberName?]
  | MemberExpression o p c l =>
      simp only [visitDiag]
      cases o with
      | Identifier onm ol =>
          by_cases hdb : onm = "db"
          · subst hdb
            cases p with
            | Identifier nm pl =>
                by_cases hnm : nm = ""
                · cases b <;> simp [diagMemberExpression, dbMemberName?, memberPropName, hnm]
                · cases b <;> simp [diagMemberExpression, dbMemberName?, memberPropName, hnm]
            | StringLiteral v pl =>
                by_cases hnm : v = ""
                · cases b <;> simp [diagMemberExpression, dbMemberName?, memberPropName, hnm]
                · cases b <;> simp [diagMemberExpression, dbMemberName?, memberPropName, hnm]
            | _ => cases b <;> simp [diagMemberExpression, dbMemberName?, memberPropName]
          · simp [diagMemberExpression, dbMemberName?, hdb]
      | MemberExpression oo op oc ol =>
          simp only [dbMemberName?]
          unfold diagMemberExpression
          repeat' split
          all_goals try simp_all
      | _ => simp [diagMemberExpression, dbMemberName?]
  | ObjectProperty k v l =>
      simp only [visitDiag]
      unfold diagObjectProperty
      repeat' split
      all_goals try simp_all [dbMemberName?]
  | _ => simp [visitDiag, dbMemberName?]

mutual
/-- The collection names recorded by the diagnostics traversal of a subtree
extend the already-recorded ones with `dbCollectionsNode`, in order. -/
theorem runDiag_collections :
    (n : Node) → ∀ (anc : List Node) (b : Bool) (s : DiagState),
      (runDiag anc b s n).refs.collections.map (fun c => c.collectionName)
        = s.refs.collections.map (fun c => c.collectionName) ++ dbCollectionsNode n
  | .MemberExpression o p c l, anc, b, s => by
      rw [runDiag]
      show (runDiag _ false (runDiag _ false (visitDiag s (.MemberExpression o p c l) anc b) o) p).refs.collections.map _ = _
      rw [runDiag_collections p, runDiag_collections o, visitDiag_collections, dbCollectionsNode]
      simp [List.append_assoc]
  | .CallExpression cal args l, anc, b, s => by
      rw [runDiag]
      show (runDiagList _ (runDiag _ true (visitDiag s (.CallExpression cal args l) anc b) cal) args).refs.collections.map _ = _
      rw [runDiagList_collections args, runDiag_collections cal, visitDiag_collections, dbCollectionsNode]
      simp [dbMemberName?, List.append_assoc]
  | .ObjectExpression ps l, anc, b, s => by
      rw [runDiag]
      show (runDiagList _ (visitDiag s (.ObjectExpression ps l) anc b) ps).refs.collections.map _ = _
      rw [runDiagList_collections ps, visitDiag_collections, dbCollectionsNode]
      simp [dbMemberName?, List.append_assoc]
  | .ObjectProperty k v l, anc, b, s => by
      rw [runDiag]
      show (runDiag _ false (runDiag _ false (visitDiag s (.ObjectProperty k v l) anc b) k) v).refs.collections.map _ = _
      rw [runDiag_collections v, runDiag_collections k, visitDiag_collections, dbCollectionsNode]
      simp [dbMemberName?, List.append_assoc]
  | .ArrayExpression els l, anc, b, s => by
      rw [runDiag]
      show (runDiagOpt _ (visitDiag s (.ArrayExpression els l) anc b) els).refs.collections.map _ = _
      rw [runDiagOpt_collections els, visitDiag_collections, dbCollectionsNode]
      simp [dbMemberName?, List.append_assoc]
  | .ExpressionStatement e l, anc, b, s => by
      rw [runDiag]
      show (runDiag _ false (visitDiag s (.ExpressionStatement e l) anc b) e).refs.collections.map _ = _
      rw [runDiag_collections e, visitDiag_collections, dbCollectionsNode]
      simp [dbMemberName?, List.append_assoc]
  | .Program bd l, anc, b, s => by
      rw [runDiag]
      show (runDiagList _ (visitDiag s (.Program bd l) anc b) bd).refs.collections.map _ = _
      rw [runDiagList_collections bd, visitDiag_collections, dbCollectionsNode]
      simp [dbMemberName?, List.append_assoc]
  | .Identifier nm l, anc, b, s => by
      rw [runDiag]
      · rw [visitDiag_collections, dbCollectionsNode]
        · simp [dbMemberName?]
        all_goals (intros; simp_all)
      all_goals (intros; simp_all)
  | .StringLiteral v l, anc, b, s => by
      rw [runDiag]
      · rw [visitDiag_collections, dbCollectionsNode]
        · simp [dbMemberName?]
        all_goals (intros; simp_all)
      all_goals (intros; simp_all)
  | .TemplateLiteral q l, anc, b, s => by
      rw [runDiag]
      · rw [visitDiag_collections, dbCollectionsNode]
        · simp [dbMemberName?]
        all_goals (intros; simp_all)
      all_goals (intros; simp_all)
  | .NumericLiteral v l, anc, b, s => by
      rw [runDiag]
      · rw [visitDiag_collections, dbCollectionsNode]
        · simp [dbMemberName?]
        all_goals (intros; simp_all)
      all_goals (intros; simp_all)

theorem runDiagList_collections :
    (l : List Node) → ∀ (anc : List Node) (s : DiagState),
      (runDiagList anc s l).refs.collections.map (fun c => c.collectionName)
        = s.refs.collections.map (fun c => c.collectionName) ++ dbCollectionsList l
  | [], anc, s => by rw [runDiagList, dbCollectionsList]; simp
  | x :: xs, anc, s => by
      rw [runDiagList, dbCollectionsList, runDiagList_collections xs, runDiag_collections x]
      simp [List.append_assoc]

theorem runDiagOpt_collections :
    (l : List (Option Node)) → ∀ (anc : List Node) (s : DiagState),
      (runDiagOpt anc s l).refs.collections.map (fun c => c.collectionName)
        = s.refs.collections.map (fun c => c.collectionName) ++ dbCollectionsOpt l
  | [], anc, s => by rw [runDiagOpt, dbCollectionsOpt]; simp
  | none :: xs, anc, s => by
      rw [runDiagOpt, dbCollectionsOpt, runDiagOpt_collections xs]
  | some x :: xs, anc, s => by
      rw [runDiagOpt, dbCollectionsOpt, runDiagOpt_collections xs, runDiag_collections x]
      simp [List.append_assoc]
end

theorem visitCallExpression_isCollectionName (sel : VisitorSelection) (st : CompletionState) (n : Node) :
    (visitCallExpression sel st n).isCollectionName = (st.isCollectionName || condCollectionNameCall n) := by
  unfold visitCallExpression
  cases h : useDbValue sel n <;> cases h4 : condCollectionNameCall n <;>
    simp [h, h4, apply_ite CompletionState.isCollectionName]

theorem visitMemberExpression_isCollectionName (st : CompletionState) (n : Node) :
    (visitMemberExpression st n).isCollectionName = (st.isCollectionName || condCollectionNameMember n) := by
  unfold visitMemberExpression
  cases h1 : collectionNameValue n <;> cases h2 : processorNameValue n <;>
    cases h4 : condCollectionNameMember n <;>
    simp [h1, h2, h4, apply_ite CompletionState.isCollectionName]

theorem visitExpressionStatement_isCollectionName (st : CompletionState) (n : Node) :
    (visitExpressionStatement st n).isCollectionName = st.isCollectionName := by
  unfold visitExpressionStatement
  simp [apply_ite CompletionState.isCollectionName]

theorem visitObjectExpression_isCollectionName (st : CompletionState) (n : Node) :
    (visitObjectExpression st n).isCollectionName = st.isCollectionName := by
  unfold visitObjectExpression
  simp [apply_ite CompletionState.isCollectionName]

theorem visitArrayExpression_isCollectionName (st : CompletionState) (n : Node) :
    (visitArrayExpression st n).isCollectionName = st.isCollectionName := by
  unfold visitArrayExpression
  simp [apply_ite CompletionState.isCollectionName]

theorem visitEnter_isCollectionName (sel : VisitorSelection) (st : CompletionState) (n : Node) :
    (visitEnter sel st n).isCollectionName
      = (st.isCollectionName || (condCollectionNameCall n || condCollectionNameMember n)) := by
  unfold visitEnter
  rw [visitArrayExpression_isCollectionName, visitObjectExpression_isCollectionName,
      visitExpressionStatement_isCollectionName, visitMemberExpression_isCollectionName,
      visitCallExpression_isCollectionName, Bool.or_assoc]

theorem visitCallExpression_isStreamProcessorName (sel : VisitorSelection) (st : CompletionState) (n : Node) :
    (visitCallExpression sel st n).isStreamProcessorName
      = (st.isStreamProcessorName || condProcessorNameCall n) := by
  unfold visitCallExpression
  cases h : useDbValue sel n <;> cases h4 : condProcessorNameCall n <;>
    simp [h, h4, apply_ite CompletionState.isStreamProcessorName]

theorem visitMemberExpression_isStreamProcessorName (st : CompletionState) (n : Node) :
    (visitMemberExpression st n).isStreamProcessorName
      = (st.isStreamProcessorName || condProcessorNameMember n) := by
  unfold visitMemberExpression
  cases h1 : collectionNameValue n <;> cases h2 : processorNameValue n <;>
    cases h4 : condProcessorNameMember n <;>
    simp [h1, h2, h4, apply_ite CompletionState.isStreamProcessorName]

theorem visitExpressionStatement_isStreamProcessorName (st : CompletionState) (n : Node) :
    (visitExpressionStatement st n).isStreamProcessorName = st.isStreamProcessorName := by
  unfold visitExpressionStatement
  simp [apply_ite CompletionState.isStreamProcessorName]

theorem visitObjectExpression_isStreamProcessorName (st : CompletionState) (n : Node) :
    (visitObjectExpression st n).isStreamProcessorName = st.isStreamProcessorName := by
  unfold visitObjectExpression
  simp [apply_ite CompletionState.isStreamProcessorName]

theorem visitArrayExpression_isStreamProcessorName (st : CompletionState) (n : Node) :
    (visitArrayExpression st n).isStreamProcessorName = st.isStreamProcessorName := by
  unfold visitArrayExpression
  simp [apply_ite CompletionState.isStreamProcessorName]

theorem visitEnter_isStreamProcessorName (sel : VisitorSelection) (st : CompletionState) (n : Node) :
    (visitEnter sel st n).isStreamProcessorName
      = (st.isStreamProcessorName || (condProcessorNameCall n || condProcessorNameMember n)) := by
  unfold visitEnter
  rw [visitArrayExpression_isStreamProcessorName, visitObjectExpression_isStreamProcessorName,
      visitExpressionStatement_isStreamProcessorName, visitMemberExpression_isStreamProcessorName,
      visitCallExpression_isStreamProcessorName, Bool.or_assoc]

/-- `root.nm` as a statement (direct property access naming form). -/
def memberNameAst (root nm : String) : Node :=
  .Program [.ExpressionStatement
    (.MemberExpression (.Identifier root (sl 0 0)) (.Identifier nm (sl 0 0)) false (sl 0 0))
    (sl 0 0)] (sl 0 0)

/-- `root['nm']` as a statement (computed string access naming form). -/
def computedNameAst (root nm : String) : Node :=
  .Program [.ExpressionStatement
    (.MemberExpression (.Identifier root (sl 0 0)) (.StringLiteral nm (sl 0 0)) true (sl 0 0))
    (sl 0 0)] (sl 0 0)

/-- `root.acc('nm')` as a statement (accessor call, string literal). -/
def accessorStrAst (root acc nm : String) : Node :=
  .Program [.ExpressionStatement
    (.CallExpression
      (.MemberExpression (.Identifier root (sl 0 0)) (.Identifier acc (sl 0 0)) false (sl 0 0))
      [.StringLiteral nm (sl 0 0)] (sl 0 0))
    (sl 0 0)] (sl 0 0)

/-- `root.acc(`nm`)` as a statement (accessor call, single-quasi template). -/
def accessorTplAst (root acc nm : String) : Node :=
  .Program [.ExpressionStatement
    (.CallExpression
      (.MemberExpression (.Identifier root (sl 0 0)) (.Identifier acc (sl 0 0)) false (sl 0 0))
      [.TemplateLiteral [nm] (sl 0 0)] (sl 0 0))
    (sl 0 0)] (sl 0 0)

/-- C1: whenever parsing fails, both public operations degrade silently and
never throw: `parseASTForCompletion` returns the all-default
`CompletionState` (every Boolean field false, every name field null) for
every cursor position, and `parseASTForDiagnostics` returns the all-empty
`DiagnosticReferences` (all four lists empty, `databaseName` null), with no
partial results. -/
theorem parse_failure_returns_defaults
    (parse : String → Option Node) (textC : String) (pos : TextPosition) (textD : String)
    (hC : parse (handleTriggerCharacter textC pos) = none) (hD : parse textD = none) :
    parseASTForCompletion parse textC pos =
      { databaseName := none, collectionName := none, streamProcessorName := none,
        isObjectKey := false, isIdentifierObjectValue := false, isTextObjectValue := false,
        isStage := false, stageOperator := none, isCollectionSymbol := false,
        isStreamProcessorSymbol := false, isUseCallExpression := false, isGlobalSymbol := false,
        isDbSymbol := false, isSpSymbol := false, isCollectionName := false,
        isStreamProcessorName := false, isAggregationCursor := false, isFindCursor := false }
    ∧ parseASTForDiagnostics parse textD =
      { collections := [], fields := [], operators := [], methods := [], databaseName := none } := by
  constructor
  · unfold parseASTForCompletion
    rw [hC]
    rfl
  · unfold parseASTForDiagnostics
    rw [hD]
    rfl

theorem parse_failure_returns_defaults_witness :
    parseASTForCompletion (fun _ => none) "db.(" ⟨0, 4⟩ =
      { databaseName := none, collectionName := none, streamProcessorName := none,
        isObjectKey := false, isIdentifierObjectValue := false, isTextObjectValue := false,
        isStage := false, stageOperator := none, isCollectionSymbol := false,
        isStreamProcessorSymbol := false, isUseCallExpression := false, isGlobalSymbol := false,
        isDbSymbol := false, isSpSymbol := false, isCollectionName := false,
        isStreamProcessorName := false, isAggregationCursor := false, isFindCursor := false }
    ∧ parseASTForDiagnostics (fun _ => none) "db.(" =
      { collections := [], fields := [], operators := [], methods := [], databaseName := none } :=
  parse_failure_returns_defaults (fun _ => none) "db.(" ⟨0, 4⟩ "db.(" rfl rfl

/-- C2: when the injected PLACEHOLDER sits in a key nested inside the object
value of a stage property of an object element of a pipeline array,
`stageOperator` records the outer stage key, not an inner key, at any object
nesting depth `d`; and on
`db.orders.aggregate([{$match: {qty: {$gt: 5}}}])` with the cursor inside
the `$match` value object (character 31), the resolved state has
`stageOperator = "$match"` and `isStage = false`. -/
theorem stage_operator_outer_key :
    (∀ (ok pk ik : String) (d : Nat) (sel : VisitorSelection),
       jsIncludes pk PLACEHOLDER = true → jsIncludes ok PLACEHOLDER = false →
       (runNode sel defaultsForCompletion (stageFamilyAst ok pk ik d)).stageOperator = some ok
         ∧ (runNode sel defaultsForCompletion (stageFamilyAst ok pk ik d)).isStage = false)
    ∧ ((parseASTForCompletion babelParse aggPlainText ⟨0, 31⟩).stageOperator = some "$match"
         ∧ (parseASTForCompletion babelParse aggPlainText ⟨0, 31⟩).isStage = false) := by
  refine ⟨fun ok pk ik d sel hpk hok =>
    ⟨stageFamily_stageOperator ok pk ik d sel hpk, stageFamily_isStage ok pk ik d sel hok⟩, ?_, ?_⟩
  · decide
  · decide

theorem stage_operator_outer_key_witness :
    (runNode { start := ⟨0, 0⟩, stop := ⟨0, 0⟩ } defaultsForCompletion
        (stageFamilyAst "$match" "TRIGGER_CHARACTERqty" "qty" 1)).stageOperator = some "$match"
    ∧ (runNode { start := ⟨0, 0⟩, stop := ⟨0, 0⟩ } defaultsForCompletion
        (stageFamilyAst "$match" "TRIGGER_CHARACTERqty" "qty" 1)).isStage = false :=
  stage_operator_outer_key.1 "$match" "TRIGGER_CHARACTERqty" "qty" 1
    { start := ⟨0, 0⟩, stop := ⟨0, 0⟩ } (by decide) (by decide)

/-- C3: the operator context emitted for a dollar-prefixed key is determined
by the ancestor chain exactly as the spec states — depth 1 to the nearest
array ⇒ `stage`; deeper ⇒ `aggregation` iff some enclosing property key is
an accumulator-bearing stage, else `query`; outside arrays ⇒ `query` iff
some object property encloses the key, else `other` (given that a key inside
an array crosses at least one object boundary, as any object-literal key
does); in the aggregate pipeline document, `$match` is classified `stage`
and `$gt` is classified `query`. -/
theorem operator_context_classification :
    (∀ anc : List Node,
       (anc.any isArrayExpressionNode = true →
         1 ≤ ((anc.takeWhile (fun m => !isArrayExpressionNode m)).filter isObjectExpressionNode).length) →
       operatorContextOf anc = specOperatorContext anc)
    ∧ (parseASTForDiagnostics babelParse aggPlainText).operators =
      [{ operator := "$match", location := { start := ⟨0, 22⟩, stop := ⟨0, 45⟩ }, context := .stage },
       { operator := "$gt", location := { start := ⟨0, 37⟩, stop := ⟨0, 43⟩ }, context := .query }] :=
  ⟨operatorContext_eq_spec, by decide⟩

theorem operator_context_classification_witness :
    operatorContextOf [Node.ObjectExpression [] (sl 0 0), Node.ArrayExpression [] (sl 0 0)]
      = specOperatorContext [Node.ObjectExpression [] (sl 0 0), Node.ArrayExpression [] (sl 0 0)] :=
  operator_context_classification.1
    [Node.ObjectExpression [] (sl 0 0), Node.ArrayExpression [] (sl 0 0)] (by decide)

/-- C4: the resolved `databaseName` is exactly the value of the last (in
traversal = document order) `use` call with a single string-literal argument
whose end position is at or before the cursor — calls after the cursor are
never attributed; in `use('a'); db.x.find(); use('b'); db.y.find();`, a
cursor between the two calls yields "a" and a cursor after both yields "b". -/
theorem database_name_attribution :
    (∀ (parse : String → Option Node) (text : String) (pos : TextPosition) (ast : Node),
       parse (handleTriggerCharacter text pos) = some ast →
       (parseASTForCompletion parse text pos).databaseName
         = lastUseNode { start := pos, stop := { line := 0, character := 0 } } ast)
    ∧ (parseASTForCompletion babelParse useText ⟨0, 20⟩).databaseName = some "a"
    ∧ (parseASTForCompletion babelParse useText ⟨0, 43⟩).databaseName = some "b" := by
  refine ⟨fun parse text pos ast h => ?_, by decide, by decide⟩
  unfold parseASTForCompletion
  rw [h, runNode_databaseName]
  cases h2 : lastUseNode { start := pos, stop := { line := 0, character := 0 } } ast <;>
    simp [h2, oAlt, defaultsForCompletion]

theorem database_name_attribution_witness :
    (parseASTForCompletion babelParse useText ⟨0, 20⟩).databaseName
      = lastUseNode { start := ⟨0, 20⟩, stop := { line := 0, character := 0 } } useInjAAst :=
  database_name_attribution.1 babelParse useText ⟨0, 20⟩ useInjAAst rfl

/-- C5 counterexample: for text `db.` with the cursor right after the dot,
the resolved state has `isCollectionSymbol = false`, contradicting the
claimed `isCollectionSymbol = true` (the checks behind `isCollectionSymbol`
require a `db.<collection>.…` member or `db.getCollection(…).…` call shape,
which `db.PLACEHOLDER` is not). -/
theorem db_dot_isCollectionSymbol_false :
    (parseASTForCompletion babelParse dbDotText ⟨0, 3⟩).isCollectionSymbol = false := by decide

/-- C5 amended: for text `db.` with the cursor right after the dot, the
resolved state is the default state with `isDbSymbol = true` and
`isCollectionName = true` (not `isCollectionSymbol`), and
`collectionName = null`. -/
theorem db_dot_state :
    parseASTForCompletion babelParse dbDotText ⟨0, 3⟩ =
      { defaultsForCompletion with isDbSymbol := true, isCollectionName := true } := by decide

/-- C6 counterexample: for text `db.x; f('')` with the cursor inside the
string literal, the injected PLACEHOLDER ends up inside a string literal,
yet the structural field `isDbSymbol` is set to true (by the unrelated
`db.x` statement — the `db`-symbol check never consults the PLACEHOLDER),
contradicting the claim that all structural fields remain false. -/
theorem placeholder_in_string_isDbSymbol :
    (parseASTForCompletion babelParse dbxText ⟨0, 9⟩).isDbSymbol = true := by decide

/-- C6 amended: when the PLACEHOLDER lands inside a string or template
literal — so that (absent collisions) no identifier of the parsed AST
contains it — the placeholder-driven structural fields `isObjectKey`,
`isStage` and `isGlobalSymbol` remain false; `isDbSymbol` and `isSpSymbol`
are independent of the PLACEHOLDER and may still be set. -/
theorem placeholder_in_string_structural_fields
    (parse : String → Option Node) (text : String) (pos : TextPosition) (ast : Node)
    (hp : parse (handleTriggerCharacter text pos) = some ast)
    (hf : identFreeNode ast = true) :
    (parseASTForCompletion parse text pos).isObjectKey = false
    ∧ (parseASTForCompletion parse text pos).isStage = false
    ∧ (parseASTForCompletion parse text pos).isGlobalSymbol = false := by
  unfold parseASTForCompletion
  rw [hp]
  refine ⟨?_, ?_, ?_⟩
  · rw [runNode_orField _ (fun st => st.isObjectKey) condObjectKey (visitEnter_isObjectKey _),
        anyCond_of_identFree condObjectKey identFree_condObjectKey ast hf]
    rfl
  · rw [runNode_orField _ (fun st => st.isStage) condIsStage (visitEnter_isStage _),
        anyCond_of_identFree condIsStage identFree_condIsStage ast hf]
    rfl
  · rw [runNode_orField _ (fun st => st.isGlobalSymbol) condGlobalSymbol (visitEnter_isGlobalSymbol _),
        anyCond_of_identFree condGlobalSymbol identFree_condGlobalSymbol ast hf]
    rfl

theorem placeholder_in_string_structural_fields_witness :
    (parseASTForCompletion babelParse dbxText ⟨0, 9⟩).isObjectKey = false
    ∧ (parseASTForCompletion babelParse dbxText ⟨0, 9⟩).isStage = false
    ∧ (parseASTForCompletion babelParse dbxText ⟨0, 9⟩).isGlobalSymbol = false :=
  placeholder_in_string_structural_fields babelParse dbxText ⟨0, 9⟩ dbxInjAst rfl (by decide)

/-- C7: for any name containing the injected PLACEHOLDER, the three
syntactic naming forms (direct property access, computed string access,
accessor call with a string-literal or single-quasi template argument) all
set the same naming flag — `isCollectionName` for the `db` forms and
`isStreamProcessorName` for the `sp` forms. -/
theorem naming_forms_equivalent (nm : String) (sel : VisitorSelection)
    (h : jsIncludes nm PLACEHOLDER = true) :
    (runNode sel defaultsForCompletion (memberNameAst "db" nm)).isCollectionName = true
    ∧ (runNode sel defaultsForCompletion (computedNameAst "db" nm)).isCollectionName = true
    ∧ (runNode sel defaultsForCompletion (accessorStrAst "db" "getCollection" nm)).isCollectionName = true
    ∧ (runNode sel defaultsForCompletion (accessorTplAst "db" "getCollection" nm)).isCollectionName = true
    ∧ (runNode sel defaultsForCompletion (memberNameAst "sp" nm)).isStreamProcessorName = true
    ∧ (runNode sel defaultsForCompletion (computedNameAst "sp" nm)).isStreamProcessorName = true
    ∧ (runNode sel defaultsForCompletion (accessorStrAst "sp" "getProcessor" nm)).isStreamProcessorName = true
    ∧ (runNode sel defaultsForCompletion (accessorTplAst "sp" "getProcessor" nm)).isStreamProcessorName = true := by
  refine ⟨?_, ?_, ?_, ?_, ?_, ?_, ?_, ?_⟩ <;>
  first
    | (rw [runNode_orField sel (fun st => st.isCollectionName)
          (fun n => condCollectionNameCall n || condCollectionNameMember n)
          (fun st n => visitEnter_isCollectionName sel st n)]
       simp [memberNameAst, computedNameAst, accessorStrAst, accessorTplAst, anyCondNode, anyCondList,
             condCollectionNameCall, condCollectionNameMember, h])
    | (rw [runNode_orField sel (fun st => st.isStreamProcessorName)
          (fun n => condProcessorNameCall n || condProcessorNameMember n)
          (fun st n => visitEnter_isStreamProcessorName sel st n)]
       simp [memberNameAst, computedNameAst, accessorStrAst, accessorTplAst, anyCondNode, anyCondList,
             condProcessorNameCall, condProcessorNameMember, h])

theorem naming_forms_equivalent_witness :
    (runNode { start := ⟨0, 0⟩, stop := ⟨0, 0⟩ } defaultsForCompletion
        (memberNameAst "db" "TRIGGER_CHARACTER")).isCollectionName = true
    ∧ (runNode { start := ⟨0, 0⟩, stop := ⟨0, 0⟩ } defaultsForCompletion
        (computedNameAst "db" "TRIGGER_CHARACTER")).isCollectionName = true
    ∧ (runNode { start := ⟨0, 0⟩, stop := ⟨0, 0⟩ } defaultsForCompletion
        (accessorStrAst "db" "getCollection" "TRIGGER_CHARACTER")).isCollectionName = true
    ∧ (runNode { start := ⟨0, 0⟩, stop := ⟨0, 0⟩ } defaultsForCompletion
        (accessorTplAst "db" "getCollection" "TRIGGER_CHARACTER")).isCollectionName = true
    ∧ (runNode { start := ⟨0, 0⟩, stop := ⟨0, 0⟩ } defaultsForCompletion
        (memberNameAst "sp" "TRIGGER_CHARACTER")).isStreamProcessorName = true
    ∧ (runNode { start := ⟨0, 0⟩, stop := ⟨0, 0⟩ } defaultsForCompletion
        (computedNameAst "sp" "TRIGGER_CHARACTER")).isStreamProcessorName = true
    ∧ (runNode { start := ⟨0, 0⟩, stop := ⟨0, 0⟩ } defaultsForCompletion
        (accessorStrAst "sp" "getProcessor" "TRIGGER_CHARACTER")).isStreamProcessorName = true
    ∧ (runNode { start := ⟨0, 0⟩, stop := ⟨0, 0⟩ } defaultsForCompletion
        (accessorTplAst "sp" "getProcessor" "TRIGGER_CHARACTER")).isStreamProcessorName = true :=
  naming_forms_equivalent "TRIGGER_CHARACTER" { start := ⟨0, 0⟩, stop := ⟨0, 0⟩ } (by decide)

/-- C8: on `use('shop'); db.orders.find({status: 'A'})` the extractor returns
exactly one collection reference (`orders` in database `shop`), one field
reference (`status`, context `find`, collection `orders`, database `shop` —
the traversal-time values of `currentDatabase`/`currentCollection`), one
method reference (`find` targeting `collection`), and no operators. -/
theorem shop_document_references :
    parseASTForDiagnostics babelParse shopText =
      { collections := [{ collectionName := "orders", databaseName := some "shop",
                          location := { start := ⟨0, 13⟩, stop := ⟨0, 22⟩ } }],
        fields := [{ fieldName := "status", collectionName := some "orders",
                     databaseName := some "shop",
                     location := { start := ⟨0, 29⟩, stop := ⟨0, 40⟩ }, context := .find }],
        operators := [],
        methods := [{ method := "find", target := .collection,
                      location := { start := ⟨0, 13⟩, stop := ⟨0, 27⟩ } }],
        databaseName := some "shop" } := by decide

/-- C9: every method reference emitted by the extractor targets `db` or
`collection`; the declared `cursor` and `other` targets are never produced. -/
theorem methods_target_db_or_collection (parse : String → Option Node) (text : String)
    (m : MethodReference) (hm : m ∈ (parseASTForDiagnostics parse text).methods) :
    m.target = MethodTarget.db ∨ m.target = MethodTarget.collection := by
  unfold parseASTForDiagnostics at hm
  cases hp : parse text with
  | none =>
      rw [hp] at hm
      simp [emptyReferences] at hm
  | some ast =>
      rw [hp] at hm
      have h := runDiag_methodsOK ast [] false initialDiagState rfl
      unfold methodTargetsOK at h
      rw [List.all_eq_true] at h
      simpa using h m hm

theorem methods_target_db_or_collection_witness :
    ({ method := "find", target := MethodTarget.collection,
       location := { start := ⟨0, 13⟩, stop := ⟨0, 27⟩ } } : MethodReference).target = MethodTarget.db
    ∨ ({ method := "find", target := MethodTarget.collection,
           location := { start := ⟨0, 13⟩, stop := ⟨0, 27⟩ } } : MethodReference).target = MethodTarget.collection :=
  methods_target_db_or_collection babelParse shopText _ (by decide)

/-- C10 counterexample: for `db['']` — a member expression whose object is
the bare identifier `db` and whose property is a string literal — the
extractor emits no collection reference at all: the JS truthiness test
`if (collectionName && node.loc)` rejects the empty string. -/
theorem db_empty_string_no_collection_reference :
    (parseASTForDiagnostics babelParse dbEmptyText).collections = [] := by decide

/-- C10 amended: the collection references emitted by the extractor are
named, in traversal order, exactly after the properties of the member
expressions whose object is the bare identifier `db` and whose property is
an identifier or a non-empty string literal (including member expressions
that are themselves direct callees); in particular `db.runCommand({ping: 1})`
yields both a CollectionReference `runCommand` and a MethodReference
`runCommand` targeting `db`, and the field record `ping` carries
`collectionName = "runCommand"` through the updated context. -/
theorem db_member_collection_references :
    (∀ (parse : String → Option Node) (text : String) (ast : Node),
       parse text = some ast →
       (parseASTForDiagnostics parse text).collections.map (fun c => c.collectionName)
         = dbCollectionsNode ast)
    ∧ parseASTForDiagnostics babelParse runCmdText =
      { collections := [{ collectionName := "runCommand", databaseName := none,
                          location := { start := ⟨0, 0⟩, stop := ⟨0, 13⟩ } }],
        fields := [{ fieldName := "ping", collectionName := some "runCommand", databaseName := none,
                     location := { start := ⟨0, 15⟩, stop := ⟨0, 22⟩ }, context := .other }],
        operators := [],
        methods := [{ method := "runCommand", target := .db,
                      location := { start := ⟨0, 0⟩, stop := ⟨0, 13⟩ } }],
        databaseName := none } := by
  refine ⟨fun parse text ast h => ?_, by decide⟩
  unfold parseASTForDiagnostics
  rw [h]
  rw [runDiag_collections ast [] false initialDiagState]
  rfl

theorem db_member_collection_references_witness :
    (parseASTForDiagnostics babelParse runCmdText).collections.map (fun c => c.collectionName)
      = dbCollectionsNode runCmdAst :=
  db_member_collection_references.1 babelParse runCmdText runCmdAst rfl
